import Mathlib

/-!
# Verification of the zoq-agent orchestration and status-streaming engine

A shallow embedding, in Lean 4, of the core components of the zoq-agent
repository:

* `StatusManager` (src/lib/status/status-manager.ts): the per-run append-only
  status log and phase-lifecycle tracker.
* `MasterOrchestratorAgent.executeQuery` (src/lib/agent/master-orchestrator-agent.ts):
  the 4-phase pipeline with whole-pipeline retry.
* The stage agents' retry loops (discovery-agent.ts, enrichment-agent.ts,
  email-writing-agent.ts) and the discovery fan-out tool dispatch.
* The planning-stage fallback (`createFallbackPlan`, `extractPlanFromAnalysis`).
* The SSE API handler (src/pages/api/agent/run.ts): event emission and the
  prospect transformation.

Modelling conventions:
* JS strings are Lean `String`s; `string.length` is modelled by `String.length`
  (the sources only ever compare lengths of ASCII text against thresholds).
* `Date.now()` is modelled by a `Nat` clock carried in the state and advanced
  by one at each recorded update; update ids (session+time+random in the
  source) are modelled by the clock value, which is equally unique per run.
* Opaque JSON payloads (`data?: any`) are modelled as `Option String`: no
  claim depends on their structure, only on their presence and preservation.
* Asynchronous model/tool calls are modelled by oracle functions supplied as
  arguments: an attempt either throws (`.err msg`) or resolves to a content
  string (`.content s`), exactly the two ways an awaited call can finish.
-/

namespace ZoqAgent

/-! ## String helpers

The sources use `String.prototype.includes`, `toLowerCase`, `trim` and regular
expressions.  We model `includes` by an explicit substring scan so that every
definition is executable and decidable. -/

/-- `charsLead pat l` holds iff `pat` occurs at the very front of `l`
(models matching a literal at the current position). -/
def charsLead : List Char → List Char → Bool
  | [], _ => true
  | _ :: _, [] => false
  | a :: as, b :: bs => a == b && charsLead as bs

/-- `listHas pat l` : the character list `pat` occurs somewhere inside `l`
(models `String.prototype.includes`). -/
def listHas (pat : List Char) : List Char → Bool
  | [] => pat.isEmpty
  | c :: rest => charsLead pat (c :: rest) || listHas pat rest

/-- `strHas s pat` models JavaScript `s.includes(pat)`. -/
def strHas (s pat : String) : Bool :=
  listHas pat.data s.data

/-- ASCII lowercase of one character. -/
def charLower (c : Char) : Char :=
  if 'A' ≤ c ∧ c ≤ 'Z' then Char.ofNat (c.toNat + 32) else c

/-- Models JavaScript `s.toLowerCase()` for the ASCII texts of this repo. -/
def jsLower (s : String) : String := String.mk (s.data.map charLower)

/-- Models JavaScript `s.trim()`. -/
def jsTrim (s : String) : String := s.trim

/-! ## StatusManager (src/lib/status/status-manager.ts)

`StatusUpdate`, `ProcessingPhase` and the `StatusManager` state are embedded
field by field.  The `EventEmitter` side (`emit` calls) has no effect on the
manager's own state and is modelled in the API-handler section as the list of
updates forwarded to the stream. -/

inductive PhaseStatus where
  | pending
  | in_progress
  | completed
  | failed
deriving DecidableEq, Repr

/-- `StatusUpdate` of status-manager.ts.  `type` ranges over
`info | success | error | progress | data` and `phase` over the phase-name
strings; both are kept as `String` exactly as in the source (which casts
arbitrary strings into the field with `as any`). -/
structure StatusUpdate where
  id : Nat
  type : String
  phase : String
  message : String
  timestamp : Nat
  data : Option String := none
  progress : Option Nat := none
deriving DecidableEq, Repr

/-- `ProcessingPhase` of status-manager.ts.  `duration` is the millisecond
difference `endTime - startTime` (the source stores its decimal-seconds
rendering; only presence matters to any claim). -/
structure ProcessingPhase where
  phase : String
  status : PhaseStatus
  startTime : Option Nat := none
  endTime : Option Nat := none
  duration : Option Nat := none
  updates : List StatusUpdate := []
deriving DecidableEq, Repr

/-- The private fields of a `StatusManager` instance, plus the modelled clock. -/
structure SMState where
  updates : List StatusUpdate
  phases : List ProcessingPhase
  currentPhase : Option String
  sessionId : String
  clock : Nat
deriving DecidableEq, Repr

namespace StatusManager

/-- `initializePhases` of status-manager.ts: the four fixed phase records,
each starting `pending`. -/
def initPhases : List ProcessingPhase :=
  [ { phase := "planning", status := .pending },
    { phase := "discovery", status := .pending },
    { phase := "enrichment", status := .pending },
    { phase := "email_writing", status := .pending } ]

/-- The state of a freshly constructed `StatusManager`. -/
def initSM (sessionId : String) : SMState :=
  { updates := []
    phases := initPhases
    currentPhase := none
    sessionId := sessionId
    clock := 0 }

/-- Mutate the record of the named phase in place, if present
(models `this.phases.get(phase)` followed by field assignment; a name
absent from the map leaves every record untouched). -/
def updatePhaseRec (phases : List ProcessingPhase) (name : String)
    (f : ProcessingPhase → ProcessingPhase) : List ProcessingPhase :=
  phases.map fun pd => if pd.phase = name then f pd else pd

/-- `addUpdate` of status-manager.ts: stamp id and timestamp, append to the
session log, and append to the matching phase record's own log. -/
def addUpdate (s : SMState) (type phase message : String)
    (data : Option String) (progress : Option Nat) : SMState :=
  let u : StatusUpdate :=
    { id := s.clock, type := type, phase := phase, message := message,
      timestamp := s.clock, data := data, progress := progress }
  { s with
    updates := s.updates ++ [u]
    phases := updatePhaseRec s.phases phase
      (fun pd => { pd with updates := pd.updates ++ [u] })
    clock := s.clock + 1 }

/-- `startPhase(phase, message)`. -/
def startPhase (s : SMState) (phase message : String) : SMState :=
  let s' := { s with
    currentPhase := some phase
    phases := updatePhaseRec s.phases phase
      (fun pd => { pd with status := .in_progress, startTime := some s.clock }) }
  addUpdate s' "info" phase message (some "action:start") none

/-- `completePhase(phase, message, data?)`. -/
def completePhase (s : SMState) (phase message : String)
    (data : Option String) : SMState :=
  let s' := { s with
    phases := updatePhaseRec s.phases phase
      (fun pd => { pd with
        status := .completed
        endTime := some s.clock
        duration := pd.startTime.map (fun t => s.clock - t) }) }
  addUpdate s' "success" phase message (some (data.getD "action:complete")) none

/-- `failPhase(phase, message, error?)`.  Note that the appended update's
`phase` field is the literal string `"error"`, not the argument. -/
def failPhase (s : SMState) (phase message : String)
    (error : Option String) : SMState :=
  let s' := { s with
    phases := updatePhaseRec s.phases phase
      (fun pd => { pd with
        status := .failed
        endTime := some s.clock
        duration := pd.startTime.map (fun t => s.clock - t) }) }
  addUpdate s' "error" "error" message (some (error.getD "action:fail")) none

/-- `updateProgress(phase, message, progress?, data?)`. -/
def updateProgress (s : SMState) (phase message : String)
    (progress : Option Nat) (data : Option String) : SMState :=
  addUpdate s "progress" phase message data progress

/-- `updateData(phase, message, data)`. -/
def updateData (s : SMState) (phase message : String) (data : String) : SMState :=
  addUpdate s "data" phase message (some data) none

/-- `updateInfo(phase, message, data?)`. -/
def updateInfo (s : SMState) (phase message : String)
    (data : Option String) : SMState :=
  addUpdate s "info" phase message data none

/-- `updateSuccess(phase, message, data?)`. -/
def updateSuccess (s : SMState) (phase message : String)
    (data : Option String) : SMState :=
  addUpdate s "success" phase message data none

/-- `clear()` of status-manager.ts: drop all updates, reset the phase map and
the current phase. -/
def clear (s : SMState) : SMState :=
  { s with updates := [], phases := initPhases, currentPhase := none }

/-- The summary object computed by `getSummary()`. -/
structure StatusSummary where
  overallStatus : String
  totalPhases : Nat
  completedPhases : Nat
  failedPhases : Nat
  inProgressPhases : Nat
  progress : Nat
deriving DecidableEq, Repr

/-- `getSummary()` of status-manager.ts, line for line: `overallStatus`
starts at `'pending'` and is overwritten by the three `if` branches.
`progress` is `Math.round(completed / total * 100)`; with four phases the
ratio is exact, so Nat division models the rounding. -/
def getSummary (s : SMState) : StatusSummary :=
  let totalPhases := s.phases.length
  let completedPhases := (s.phases.filter fun p => p.status = .completed).length
  let failedPhases := (s.phases.filter fun p => p.status = .failed).length
  let inProgressPhases := (s.phases.filter fun p => p.status = .in_progress).length
  let overallStatus :=
    if failedPhases > 0 then "failed"
    else if completedPhases = totalPhases then "completed"
    else if inProgressPhases > 0 then "in_progress"
    else "pending"
  { overallStatus := overallStatus
    totalPhases := totalPhases
    completedPhases := completedPhases
    failedPhases := failedPhases
    inProgressPhases := inProgressPhases
    progress := completedPhases * 100 / totalPhases }

/-- Number of phase records currently `in_progress` (the quantity the spec's
single-active-phase invariant bounds). -/
def countInProgress (s : SMState) : Nat :=
  (s.phases.filter fun p => p.status = .in_progress).length

/-- `old` is an unchanged initial segment of `new`: the append-only relation
between the session log observed at two points in time. -/
def seqExtends (old new : List StatusUpdate) : Prop :=
  ∃ tail, old ++ tail = new

/-! ### Operations as data

To reason about arbitrary call sequences (and about every intermediate state
of an orchestrator run) the public `StatusManager` methods are reified as an
operation type together with its interpreter. -/

/-- One public `StatusManager` method call. -/
inductive SMOp where
  | startPhase (phase message : String)
  | completePhase (phase message : String) (data : Option String)
  | failPhase (phase message : String) (error : Option String)
  | updateProgress (phase message : String) (progress : Option Nat) (data : Option String)
  | updateData (phase message : String) (data : String)
  | updateInfo (phase message : String) (data : Option String)
  | updateSuccess (phase message : String) (data : Option String)
  | clear
deriving DecidableEq, Repr

/-- Interpret one operation on the manager state. -/
def applySM (op : SMOp) (s : SMState) : SMState :=
  match op with
  | .startPhase p m => startPhase s p m
  | .completePhase p m d => completePhase s p m d
  | .failPhase p m e => failPhase s p m e
  | .updateProgress p m pr d => updateProgress s p m pr d
  | .updateData p m d => updateData s p m d
  | .updateInfo p m d => updateInfo s p m d
  | .updateSuccess p m d => updateSuccess s p m d
  | .clear => clear s

/-- Run a sequence of operations. -/
def applyOps (ops : List SMOp) (s : SMState) : SMState :=
  ops.foldl (fun s op => applySM op s) s

/-- Every state passed through while running `ops` from `s`, the initial and
final states included. -/
def statesOf : List SMOp → SMState → List SMState
  | [], s => [s]
  | op :: ops, s => s :: statesOf ops (applySM op s)

/-! ### The phase-status abstraction

The phase-lifecycle claims only depend on the association of phase names to
statuses.  `phasesOf` projects the state onto that map, `absOp` is the induced
action of each operation, and `absScan` the induced trace. -/

/-- Project a manager state onto the name → status association. -/
def phasesOf (s : SMState) : List (String × PhaseStatus) :=
  s.phases.map fun p => (p.phase, p.status)

/-- Set the status of the named entry (no effect on other entries, no effect
at all when the name is absent — as with `Map.get` on a missing key). -/
def absSet (m : List (String × PhaseStatus)) (name : String) (st : PhaseStatus) :
    List (String × PhaseStatus) :=
  m.map fun e => if e.1 = name then (e.1, st) else e

/-- The name → status association of a fresh manager. -/
def absInit : List (String × PhaseStatus) :=
  [("planning", .pending), ("discovery", .pending),
   ("enrichment", .pending), ("email_writing", .pending)]

/-- Action of one operation on the name → status association. -/
def absOp (op : SMOp) (m : List (String × PhaseStatus)) :
    List (String × PhaseStatus) :=
  match op with
  | .startPhase p _ => absSet m p .in_progress
  | .completePhase p _ _ => absSet m p .completed
  | .failPhase p _ _ => absSet m p .failed
  | .clear => absInit
  | _ => m

/-- Induced trace of associations. -/
def absScan : List SMOp → List (String × PhaseStatus) → List (List (String × PhaseStatus))
  | [], m => [m]
  | op :: ops, m => m :: absScan ops (absOp op m)

/-- Induced final association. -/
def absFold (ops : List SMOp) (m : List (String × PhaseStatus)) :
    List (String × PhaseStatus) :=
  ops.foldl (fun m op => absOp op m) m

/-- In-progress count of an association. -/
def countIP (m : List (String × PhaseStatus)) : Nat :=
  (m.filter fun e => e.2 = .in_progress).length

/-- Entry count with a `failed` status. -/
def countFailed (m : List (String × PhaseStatus)) : Nat :=
  (m.filter fun e => e.2 = .failed).length

/-- Operations that change a phase status (or reset the map): phase-lifecycle
transitions and `clear`.  All other operations only append updates. -/
def isTransition : SMOp → Bool
  | .startPhase _ _ => true
  | .completePhase _ _ _ => true
  | .failPhase _ _ _ => true
  | .clear => true
  | _ => false

end StatusManager

/-! ## MasterOrchestratorAgent (src/lib/agent/master-orchestrator-agent.ts)

`executeQuery` drives the shared `StatusManager` through a fixed sequence of
calls, branching on the outcome of each awaited stage.  The non-deterministic
environment (model calls, tool calls, stage agents) is abstracted into an
`AttemptSpec` per pipeline attempt:

* `planningOk` — whether the planning model call resolves
  (`generateSearchQueriesAndPlan` catches a rejection and falls back, so
  planning always completes either way);
* for each of the three stages, the extra status updates the stage agent
  emits while running (the agents only ever call
  `updateInfo`/`updateProgress`/`updateData`/`updateSuccess`, never a phase
  transition — checked against discovery-agent.ts, enrichment-agent.ts and
  email-writing-agent.ts), and the stage's outcome as seen by the
  orchestrator's parse-and-validate block:
  - `.okData`  — parse succeeded with `status === 'success'`
                 (`completePhase` then `updateData`);
  - `.okText`  — parse/validation threw without the `*_FAILED` marker
                 (`completePhase` only);
  - `.throws`  — the awaited stage call rejected, or the raw payload began
                 with the `*_FAILED` marker and the error was re-thrown.

Messages are run-time interpolated strings in the source; they are modelled
by fixed representative literals, since no claim depends on message text. -/

namespace Orchestrator

open StatusManager

/-- Outcome of one stage, as seen by the orchestrator's validation block. -/
inductive StageRes where
  | throws (msg : String)
  | okData
  | okText
deriving DecidableEq, Repr

/-- A status call a stage agent may perform while it runs.  The agents hold
only these four non-transition methods. -/
inductive ChatterOp where
  | info (phase message : String)
  | progress (phase message : String) (pct : Option Nat)
  | dataU (phase message : String) (payload : String)
  | success (phase message : String)
deriving DecidableEq, Repr

/-- Reflect a chatter call into the operation type. -/
def ChatterOp.toOp : ChatterOp → SMOp
  | .info p m => .updateInfo p m none
  | .progress p m pct => .updateProgress p m pct none
  | .dataU p m d => .updateData p m d
  | .success p m => .updateSuccess p m none

/-- Environment behaviour of one whole-pipeline attempt. -/
structure AttemptSpec where
  planningOk : Bool
  discoveryChatter : List ChatterOp
  discovery : StageRes
  enrichmentChatter : List ChatterOp
  enrichment : StageRes
  emailChatter : List ChatterOp
  email : StageRes
deriving DecidableEq, Repr

/-- Status calls performed by `generateSearchQueriesAndPlan` (lines 351-396):
two progress updates, then either the third progress update (model call
resolved) or the fallback notice (model call rejected); the orchestrator then
completes the phase.  Planning never throws. -/
def planningOps (ok : Bool) : List SMOp :=
  [ .startPhase "planning" "Analyzing request and planning search strategy..."
  , .updateProgress "planning" "Analyzing your request..." (some 30) none
  , .updateProgress "planning" "Creating search strategy..." (some 60) none ]
  ++ (if ok then
        [.updateProgress "planning" "Finalizing execution plan..." (some 90) none]
      else
        [.updateInfo "planning" "Using fallback search strategy..." none])
  ++ [.completePhase "planning" "Plan ready" (some "plan")]

/-- Status calls of one stage: `startPhase`, the agent's own chatter, then
the orchestrator's validation outcome (nothing on a throw). -/
def stageOps (phase startMsg : String) (chatter : List ChatterOp)
    (res : StageRes) (okMsg textMsg dataMsg : String) : List SMOp :=
  [SMOp.startPhase phase startMsg] ++ chatter.map ChatterOp.toOp ++
  (match res with
   | .okData => [ .completePhase phase okMsg (some "stage data")
                , .updateData phase dataMsg "stage data" ]
   | .okText => [.completePhase phase textMsg (some "duration")]
   | .throws _ => [])

/-- The status calls of one pipeline attempt together with `some errorMessage`
when the attempt threw (`none` when all four phases completed). -/
def attemptOps (retry : Bool) (a : AttemptSpec) : List SMOp × Option String :=
  let pre := (if retry then
                [SMOp.updateInfo "planning" "Retrying... (Attempt 2/2)" none]
              else []) ++ planningOps a.planningOk
  let dOps := stageOps "discovery" "Finding founders who match your criteria..."
      a.discoveryChatter a.discovery "Hurray! Found people"
      "Discovery completed (processing results...)" "Found people"
  match a.discovery with
  | .throws m => (pre ++ dOps, some ("Discovery phase failed: " ++ m))
  | _ =>
    let eOps := stageOps "enrichment" "Enriching profiles with detailed information..."
        a.enrichmentChatter a.enrichment "Enhanced profiles with actionable insights"
        "Enrichment completed (processing data...)" "Key insights"
    match a.enrichment with
    | .throws m => (pre ++ dOps ++ eOps, some ("Enrichment phase failed: " ++ m))
    | _ =>
      let mOps := stageOps "email_writing" "Generating personalized cold emails..."
          a.emailChatter a.email "Successfully generated personalized emails"
          "Email writing completed" "Generated emails"
      match a.email with
      | .throws m => (pre ++ dOps ++ eOps ++ mOps, some ("Email writing failed: " ++ m))
      | _ => (pre ++ dOps ++ eOps ++ mOps, none)

/-- The status calls of a whole `executeQuery` run (`retryAttempts = 2`),
with the resulting `success` flag and the attempt number reported in the
result.  Attempt 1 failing leads to the retry notice, a blocking sleep (no
status calls) and attempt 2; attempt 2 failing leads to
`failPhase('error', ...)`. -/
def execOps (a1 a2 : AttemptSpec) : List SMOp × Bool × Nat :=
  let pre0 := [SMOp.updateInfo "planning" "Understanding your request..." none]
  match attemptOps false a1 with
  | (ops1, none) =>
      (pre0 ++ ops1 ++ [SMOp.updateSuccess "complete" "Success! Generated personalized emails" none],
       true, 1)
  | (ops1, some m1) =>
    let between := [SMOp.updateInfo "error" ("Attempt 1 failed: " ++ m1 ++ ". Retrying...") none]
    match attemptOps true a2 with
    | (ops2, none) =>
        (pre0 ++ ops1 ++ between ++ ops2 ++
           [SMOp.updateSuccess "complete" "Success! Generated personalized emails" none],
         true, 2)
    | (ops2, some m2) =>
        (pre0 ++ ops1 ++ between ++ ops2 ++
           [SMOp.failPhase "error" ("All attempts failed: " ++ m2) (some m2)],
         false, 2)

/-- The fields of `MasterExecutionResult` the claims refer to.  Interpolated
timing strings are omitted (pure presentation of wall-clock durations). -/
structure MasterExecutionResult where
  success : Bool
  sessionId : String
  attemptNumber : Nat
  error : Option String
  lastError : Option String
  statusSummary : StatusSummary
deriving DecidableEq, Repr

/-- `executeQuery`, as the final result paired with the final state of the
shared `StatusManager`. -/
def executeQuery (a1 a2 : AttemptSpec) (sessionId : String) :
    MasterExecutionResult × SMState :=
  let r := execOps a1 a2
  let sFinal := applyOps r.1 (initSM sessionId)
  ({ success := r.2.1
     sessionId := sessionId
     attemptNumber := r.2.2
     error := if r.2.1 then none else some "All execution attempts failed"
     lastError := if r.2.1 then none else some "last stage error"
     statusSummary := getSummary sFinal }, sFinal)

/-- Every `StatusManager` state passed through during a run, initial and
final state included. -/
def execTrace (a1 a2 : AttemptSpec) (sessionId : String) : List SMState :=
  statesOf (execOps a1 a2).1 (initSM sessionId)

/-! Abstract name → status associations reached by `executeQuery`, used to
characterise its traces. -/

/-- The four fixed phase names with given statuses, in insertion order. -/
def mapAll (pl d e w : PhaseStatus) : List (String × PhaseStatus) :=
  [("planning", pl), ("discovery", d), ("enrichment", e), ("email_writing", w)]

/-- After an attempt threw in discovery. -/
def mapD : List (String × PhaseStatus) :=
  mapAll .completed .in_progress .pending .pending

/-- After an attempt threw in enrichment. -/
def mapE : List (String × PhaseStatus) :=
  mapAll .completed .completed .in_progress .pending

/-- After an attempt threw in email writing. -/
def mapM : List (String × PhaseStatus) :=
  mapAll .completed .completed .completed .in_progress

/-- After an attempt completed all four phases. -/
def mapDone : List (String × PhaseStatus) :=
  mapAll .completed .completed .completed .completed

/-- The association reached after running one attempt from `m0`: phases up to
the throwing stage are completed, the throwing stage is left `in_progress`,
later phases keep whatever status `m0` gave them. -/
def attemptEnd (m0 : List (String × PhaseStatus)) (a : AttemptSpec) :
    List (String × PhaseStatus) :=
  match a.discovery with
  | .throws _ => absSet (absSet m0 "planning" .completed) "discovery" .in_progress
  | _ =>
    match a.enrichment with
    | .throws _ =>
        absSet (absSet (absSet m0 "planning" .completed) "discovery" .completed)
          "enrichment" .in_progress
    | _ =>
      match a.email with
      | .throws _ =>
          absSet (absSet (absSet (absSet m0 "planning" .completed)
            "discovery" .completed) "enrichment" .completed) "email_writing" .in_progress
      | _ =>
          absSet (absSet (absSet (absSet m0 "planning" .completed)
            "discovery" .completed) "enrichment" .completed) "email_writing" .completed

end Orchestrator

/-! ## Stage agents: the attempt/retry loops

Each of the three stage agents wraps one "model call plus post-processing"
step in a `while (attempt < this.retryAttempts)` loop with
`retryAttempts = 2`.  The awaited step is abstracted into an oracle
`Nat → AttemptOutcome` giving, per attempt index, either the resolved content
string or a rejection.  Each loop is embedded with an explicit fuel argument
equal to `retryAttempts - attempt` and returns the produced string together
with the number of attempts (oracle consultations) made. -/

namespace Agents

/-- Outcome of one awaited attempt (model call and, for discovery/enrichment,
its tool-handling continuation). -/
inductive AttemptOutcome where
  | err (msg : String)
  | content (s : String)
deriving DecidableEq, Repr

/-- `retryAttempts` of all three stage agents. -/
def retryAttempts : Nat := 2

/-- `PeopleCard` of discovery-agent.ts (confidence, a JS float 0-10, is
modelled at Nat precision; only the failure payloads with empty `people`
matter to any claim). -/
structure PeopleCard where
  name : String
  company : Option String := none
  role : Option String := none
  linkedinUrl : Option String := none
  companyUrl : Option String := none
  email : Option String := none
  location : Option String := none
  confidence : Nat := 0
  summary : Option String := none
deriving DecidableEq, Repr

/-- `DiscoveryResponse` of discovery-agent.ts. -/
structure DiscoveryResponse where
  people : List PeopleCard
  searchQueries : List String
  totalSearches : Nat
  status : String
  error : Option String := none
deriving DecidableEq, Repr

/-- A JSON string literal (the payload strings of this model need no
escaping). -/
def jsonStr (s : String) : String := "\"" ++ s ++ "\""

/-- `JSON.stringify` of a `DiscoveryResponse`, modelled structurally (person
entries are serialised by name; every serialised failure payload has
`people: []`). -/
def jsonOfDiscoveryResponse (r : DiscoveryResponse) : String :=
  "\x7b\"people\":[" ++ String.intercalate "," (r.people.map fun c => jsonStr c.name) ++
  "],\"searchQueries\":[" ++ String.intercalate "," (r.searchQueries.map jsonStr) ++
  "],\"totalSearches\":" ++ toString r.totalSearches ++
  ",\"status\":" ++ jsonStr r.status ++
  (match r.error with
   | some e => ",\"error\":" ++ jsonStr e
   | none => "") ++ "\x7d"

/-- The `errorResponse` built inside the catch branch of `findBasicPeople`
when the final attempt threw. -/
def discoveryErrorResponse (queries : List String) (err : String) : DiscoveryResponse :=
  { people := []
    searchQueries := queries
    totalSearches := queries.length
    status := "failed"
    error := some ("Unable to find people data after 2 attempts. Error: " ++ err) }

/-- The `failedResponse` returned after the loop exits by its condition. -/
def discoveryFailedResponse (queries : List String) : DiscoveryResponse :=
  { people := []
    searchQueries := queries
    totalSearches := queries.length
    status := "failed"
    error := some "No attempts succeeded" }

/-- The retry loop of `DiscoveryAgent.findBasicPeople` (lines 139-226).
`fuel = retryAttempts - attempt` mirrors the `while (attempt <
retryAttempts)` condition; `made` counts attempts performed.  A resolved
attempt is returned when `result && result.length > 100` (a string longer
than 100 characters is in particular truthy); otherwise `attempt++` and the
loop re-checks.  A rejected attempt increments `attempt` and returns the
error payload once `attempt >= retryAttempts`. -/
def findBasicPeopleGo (oracle : Nat → AttemptOutcome) (queries : List String) :
    Nat → Nat → Nat → String × Nat
  | _, 0, made => (jsonOfDiscoveryResponse (discoveryFailedResponse queries), made)
  | attempt, fuel + 1, made =>
    match oracle attempt with
    | .content r =>
        if 100 < r.length then (r, made + 1)
        else findBasicPeopleGo oracle queries (attempt + 1) fuel (made + 1)
    | .err m =>
        if retryAttempts ≤ attempt + 1 then
          (jsonOfDiscoveryResponse (discoveryErrorResponse queries m), made + 1)
        else findBasicPeopleGo oracle queries (attempt + 1) fuel (made + 1)

/-- `DiscoveryAgent.findBasicPeople`: before the loop, the tool catalog is
consulted and a missing `search_engine` tool throws. -/
def findBasicPeople (searchToolAvailable : Bool) (oracle : Nat → AttemptOutcome)
    (queries : List String) : Except String (String × Nat) :=
  if searchToolAvailable then
    .ok (findBasicPeopleGo oracle queries 0 retryAttempts 0)
  else
    .error "Search engine tool not available"

/-- `EnrichmentResponse` of enrichment-agent.ts (profile entries are opaque
here; every failure payload this loop emits carries an empty list). -/
structure EnrichmentResponse where
  enrichedProfiles : List String
  totalSearches : Nat
  sourcesScraped : Nat
  status : String
  processingSteps : List String
deriving DecidableEq, Repr

/-- `JSON.stringify` of an `EnrichmentResponse`, modelled structurally. -/
def jsonOfEnrichmentResponse (r : EnrichmentResponse) : String :=
  "\x7b\"enrichedProfiles\":[" ++ String.intercalate "," (r.enrichedProfiles.map jsonStr) ++
  "],\"totalSearches\":" ++ toString r.totalSearches ++
  ",\"sourcesScraped\":" ++ toString r.sourcesScraped ++
  ",\"status\":" ++ jsonStr r.status ++
  ",\"processingSteps\":[" ++ String.intercalate "," (r.processingSteps.map jsonStr) ++ "]\x7d"

/-- The catch-branch payload of `enrichPeopleWithEmailSignals`. -/
def enrichmentErrorResponse : EnrichmentResponse :=
  { enrichedProfiles := []
    totalSearches := 0
    sourcesScraped := 0
    status := "failed"
    processingSteps := ["Failed to start enrichment"] }

/-- The after-loop payload of `enrichPeopleWithEmailSignals`. -/
def enrichmentFailedResponse : EnrichmentResponse :=
  { enrichedProfiles := []
    totalSearches := 0
    sourcesScraped := 0
    status := "failed"
    processingSteps := ["All attempts failed"] }

/-- The retry loop of `EnrichmentAgent.enrichPeopleWithEmailSignals`
(lines 172-277): identical control flow to discovery with success threshold
`result.length > 300`. -/
def enrichGo (oracle : Nat → AttemptOutcome) :
    Nat → Nat → Nat → String × Nat
  | _, 0, made => (jsonOfEnrichmentResponse enrichmentFailedResponse, made)
  | attempt, fuel + 1, made =>
    match oracle attempt with
    | .content r =>
        if 300 < r.length then (r, made + 1)
        else enrichGo oracle (attempt + 1) fuel (made + 1)
    | .err _ =>
        if retryAttempts ≤ attempt + 1 then
          (jsonOfEnrichmentResponse enrichmentErrorResponse, made + 1)
        else enrichGo oracle (attempt + 1) fuel (made + 1)

/-- `EnrichmentAgent.enrichPeopleWithEmailSignals`: the tool catalog is
fetched ahead of the loop; a rejected fetch propagates. -/
def enrichPeopleWithEmailSignals (listToolsOk : Bool)
    (oracle : Nat → AttemptOutcome) : Except String (String × Nat) :=
  if listToolsOk then .ok (enrichGo oracle 0 retryAttempts 0)
  else .error "listTools failed"

/-! ### EmailWritingAgent (email-writing-agent.ts) -/

/-- The fixed blocklist of generic phrases (email-writing-agent.ts
lines 361-370), each detected occurrence costing 2 points. -/
def genericPhrases : List String :=
  [ "hope this finds you well"
  , "hope you\x27re doing well"
  , "i hope this email"
  , "reaching out to you"
  , "wanted to connect"
  , "i came across your profile"
  , "i would love to discuss"
  , "would you be interested" ]

/-- The fixed allowlist of personalization signals (lines 380-390). -/
def personalizationSignals : List String :=
  [ "saw your"
  , "loved your"
  , "noticed your"
  , "congrats on"
  , "your recent"
  , "your post"
  , "your interview"
  , "your company"
  , "just read" ]

/-- Number of personalization signals found in the (lowercased) content. -/
def personalizationCount (emailContent : String) : Nat :=
  (personalizationSignals.filter fun p => strHas (jsLower emailContent) p).length

/-- Whether the content matches `/\$?\d+[KkMm]?/` — equivalently, whether it
contains any digit. -/
def hasMetricToken (emailContent : String) : Bool :=
  emailContent.data.any fun c => c.isDigit

/-- `EmailWritingAgent.validateEmailQuality` (lines 357-426): start at 10;
−2 per generic phrase found in the lowercased content; −3 when no
personalization signal is present; −1 when no numeric token is present;
−2 when longer than 1500 or shorter than 100 characters; clamp to [0, 10]. -/
def validateEmailQuality (emailContent : String) : Int :=
  let score : Int := 10
  let score := score -
    2 * ((genericPhrases.filter fun p => strHas (jsLower emailContent) p).length : Int)
  let score := if personalizationCount emailContent = 0 then score - 3 else score
  let score := if hasMetricToken emailContent then score else score - 1
  let score :=
    if 1500 < emailContent.length then score - 2
    else if emailContent.length < 100 then score - 2
    else score
  max 0 (min 10 score)

/-- The acceptance test applied to one email-writing attempt
(lines 182 and 222): content longer than 100 characters and a quality score
of at least 6. -/
def emailAttemptAccepted (emailContent : String) : Bool :=
  decide (100 < emailContent.length) && decide ((6 : Int) ≤ validateEmailQuality emailContent)

/-- A concrete generic email body used to evaluate the quality scorer: it
contains the blocklisted phrase and none of the personalization signals. -/
def emailFixture : String :=
  "Hi there, hope this finds you well. We sell things that may interest the team at Example and would value a quick chat sometime soon."

/-- `EmailResponse` of email-writing-agent.ts (email entries opaque: the
failure payloads carry an empty list; `generationTime` is a wall-clock
rendering, modelled by a fixed placeholder). -/
structure EmailResponse where
  emails : List String
  totalEmails : Nat
  averagePersonalization : Nat
  averageConfidence : Nat
  emailType : String
  status : String
  message : Option String := none
  generationTime : String := "t"
deriving DecidableEq, Repr

/-- `JSON.stringify` of an `EmailResponse`, modelled structurally. -/
def jsonOfEmailResponse (r : EmailResponse) : String :=
  "\x7b\"emails\":[" ++ String.intercalate "," (r.emails.map jsonStr) ++
  "],\"totalEmails\":" ++ toString r.totalEmails ++
  ",\"averagePersonalization\":" ++ toString r.averagePersonalization ++
  ",\"averageConfidence\":" ++ toString r.averageConfidence ++
  ",\"emailType\":" ++ jsonStr r.emailType ++
  ",\"status\":" ++ jsonStr r.status ++
  (match r.message with
   | some m => ",\"message\":" ++ jsonStr m
   | none => "") ++
  ",\"generationTime\":" ++ jsonStr r.generationTime ++ "\x7d"

/-- The catch-branch payload of `generatePersonalizedEmails`. -/
def emailErrorResponse (emailType : String) (err : String) : EmailResponse :=
  { emails := []
    totalEmails := 0
    averagePersonalization := 0
    averageConfidence := 0
    emailType := emailType
    status := "failed"
    message := some ("Unable to generate quality emails after 2 attempts. Error: " ++ err) }

/-- The after-loop payload of `generatePersonalizedEmails`. -/
def emailFailedResponse (emailType : String) : EmailResponse :=
  { emails := []
    totalEmails := 0
    averagePersonalization := 0
    averageConfidence := 0
    emailType := emailType
    status := "failed"
    message := some "No attempts succeeded" }

/-- The retry loop of `EmailWritingAgent.generatePersonalizedEmails`
(lines 151-276): a resolved attempt is returned only when the content
exceeds 100 characters and `validateEmailQuality` scores at least 6;
otherwise the loop retries, and after the bound returns the failed
payload. -/
def emailGo (oracle : Nat → AttemptOutcome) (emailType : String) :
    Nat → Nat → Nat → String × Nat
  | _, 0, made => (jsonOfEmailResponse (emailFailedResponse emailType), made)
  | attempt, fuel + 1, made =>
    match oracle attempt with
    | .content c =>
        if 100 < c.length then
          if (6 : Int) ≤ validateEmailQuality c then (c, made + 1)
          else emailGo oracle emailType (attempt + 1) fuel (made + 1)
        else emailGo oracle emailType (attempt + 1) fuel (made + 1)
    | .err m =>
        if retryAttempts ≤ attempt + 1 then
          (jsonOfEmailResponse (emailErrorResponse emailType m), made + 1)
        else emailGo oracle emailType (attempt + 1) fuel (made + 1)

/-- `EmailWritingAgent.generatePersonalizedEmails` (no tool catalog is
consulted ahead of this loop). -/
def generatePersonalizedEmails (oracle : Nat → AttemptOutcome)
    (emailType : String) : String × Nat :=
  emailGo oracle emailType 0 retryAttempts 0

/-! ### Discovery fan-out (`DiscoveryAgent.handleSearchAndReturn`,
discovery-agent.ts lines 274-385)

The per-turn tool dispatch: every `search_engine` call requested by the model
turn is dispatched; each is individually caught, a rejection becoming a
`Search Error: ...` tool message; then a compilation model call (no tools) is
made on the extended conversation. -/

/-- One requested tool call. -/
structure ToolCall where
  id : String
  name : String
  arguments : String
deriving DecidableEq, Repr, Inhabited

/-- The assistant message of one model turn. -/
structure AssistantMsg where
  content : Option String
  tool_calls : List ToolCall
deriving DecidableEq, Repr

/-- A conversation message. -/
inductive ChatMsg where
  | user (content : String)
  | assistant (content : Option String) (tool_calls : List ToolCall)
  | tool (tool_call_id : String) (content : String)
deriving DecidableEq, Repr

/-- The environment of the handler: `JSON.parse` on a tool call's argument
string (`none` = a parse exception, which is raised outside the per-call
`try` and therefore rejects the whole batch), the tool gateway call (its
`.ok` value is the already-`JSON.stringify`-ed result), and the follow-up
compilation model call. -/
structure SearchEnv where
  parseArgs : String → Option String
  callTool : String → Except String String
  compile : List ChatMsg → String

/-- The compilation request appended after the tool results (representative
literal; its text plays no role). -/
def compilationPrompt : String :=
  "Now compile all the search results and extract the best people. Return ONLY valid JSON."

/-- Dispatch one tool call: parse the arguments (a parse failure escapes the
per-call catch), then run the search with the per-call catch that converts a
rejection into a `Search Error:` tool message. -/
def dispatchSearch (env : SearchEnv) (tc : ToolCall) : Except String ChatMsg :=
  match env.parseArgs tc.arguments with
  | none => .error "Unexpected token in JSON"
  | some args =>
    match env.callTool args with
    | .ok r => .ok (ChatMsg.tool tc.id r)
    | .error e => .ok (ChatMsg.tool tc.id ("Search Error: " ++ e))

/-- `handleSearchAndReturn`: push the assistant message; with tool calls
present, dispatch them all, append every tool result, append the compilation
request, and return the compilation call's content together with the final
conversation; with no tool calls, return the assistant content directly. -/
def handleSearchAndReturn (env : SearchEnv) (messages : List ChatMsg)
    (response : Option AssistantMsg) : Except String (List ChatMsg × String) :=
  match response with
  | none => .error "No assistant message received"
  | some am =>
    let messages := messages ++ [ChatMsg.assistant am.content am.tool_calls]
    if 0 < am.tool_calls.length then do
      let toolResults ← am.tool_calls.mapM (dispatchSearch env)
      let messages := messages ++ toolResults ++ [ChatMsg.user compilationPrompt]
      return (messages, env.compile messages)
    else
      return (messages, am.content.getD "")

end Agents

/-! ## Planning stage (master-orchestrator-agent.ts lines 351-565)

`generateSearchQueriesAndPlan` makes one model call and extracts an
`ExecutionPlan` from its free text; any rejection of the model call is caught
and answered with the deterministic `createFallbackPlan`.  The regex-based
extraction is embedded with explicit character scans. -/

namespace Orchestrator

/-- `UserProfile` of master-orchestrator-agent.ts. -/
structure UserProfile where
  name : String
  company : String
  valueProposition : String
  caseStudy : Option String := none
  skills : Option String := none
  industry : Option String := none
deriving DecidableEq, Repr

/-- `ExecutionPlan` of master-orchestrator-agent.ts. -/
structure ExecutionPlan where
  intent : String
  searchQueries : List String
  userProfile : UserProfile
  emailType : String
  targetCount : Nat
deriving DecidableEq, Repr

/-- Global scan of `/"([^"]{5,80})"/g` over one line, expressed on the
segments strictly between consecutive `"` characters (the input is
`(line.splitOn quote).drop 1`): a segment of length 5-80 followed by a
closing quote is a match and scanning resumes after that quote; otherwise
the engine advances to the next quote. -/
def quotedScan : List String → List String
  | [] => []
  | [_] => []
  | s :: rest =>
    if 5 ≤ s.length ∧ s.length ≤ 80 then s :: quotedScan (rest.drop 1)
    else quotedScan rest
termination_by l => l.length
decreasing_by
  all_goals simp [List.length_drop]
  all_goals omega

/-- `/^\d+\./` applied after the initial digit run: the first non-digit
character must be a dot. -/
def afterDigitsIsDot : List Char → Bool
  | [] => false
  | c :: rest => if c.isDigit then afterDigitsIsDot rest else c == '.'

/-- `/^\d+\./.test(s)`: at least one leading digit and a dot right after the
digit run. -/
def digitDotLead : List Char → Bool
  | [] => false
  | c :: rest => c.isDigit && afterDigitsIsDot rest

/-- Character class of `/^[-•\d.\s]+/`. -/
def isLeadStripChar (c : Char) : Bool :=
  c == '-' || c == '•' || c.isDigit || c == '.' || c.isWhitespace

/-- Fold one line into the accumulated query list: quoted matches first,
then the bullet/numbered-line candidate, each guarded by length > 5 and a
duplicate check (`!searchQueries.includes(query)`). -/
def extractLineQueries (acc : List String) (line : String) : List String :=
  let qs := quotedScan ((line.splitOn "\"").drop 1)
  let acc := qs.foldl
    (fun acc mtch =>
      let query := jsTrim mtch
      if 5 < query.length && !(acc.contains query) then acc ++ [query] else acc)
    acc
  if (strHas line "-" || strHas line "•" || digitDotLead (jsTrim line).data)
      && 10 < line.length && line.length < 100 then
    let cleanQuery := jsTrim (String.mk (line.data.dropWhile isLeadStripChar))
    if 5 < cleanQuery.length && !(acc.contains cleanQuery) then acc ++ [cleanQuery]
    else acc
  else acc

/-- The keyword-keyed canned queries pushed when fewer than 3 queries were
extracted (lines 426-452). -/
def fallbackQueryBlock (originalQuery : String) : List String :=
  if strHas (jsLower originalQuery) "yc" || strHas (jsLower originalQuery) "combinator" then
    [ "Y Combinator startup founders contact"
    , "YC alumni founders LinkedIn profiles"
    , "successful Y Combinator companies founders"
    , "Y Combinator portfolio company CEOs"
    , "YC Demo Day founders contact information" ]
  else if strHas (jsLower originalQuery) "bangalore" || strHas (jsLower originalQuery) "banglore" then
    [ "Bangalore startup founders contact"
    , "AI SaaS startup founders Bangalore"
    , "tech entrepreneurs Bangalore LinkedIn"
    , "startup CEO Bangalore contact information"
    , "AI startup founders India contact" ]
  else
    [ "startup founders contact information"
    , "tech company CEO email addresses"
    , "successful entrepreneur contact details"
    , "startup founder LinkedIn profiles"
    , "technology company leaders contact" ]

/-- The email-type keyword heuristic (lines 454-469). -/
def classifyEmailType (originalQuery analysisText : String) : String :=
  let lowerQuery := jsLower originalQuery
  let lowerAnalysis := jsLower analysisText
  if strHas lowerQuery "sell" || strHas lowerQuery "sales" ||
      strHas lowerAnalysis "sales" || strHas lowerQuery "product" ||
      strHas lowerQuery "cold email" then "sales_outreach"
  else if strHas lowerQuery "hire" || strHas lowerQuery "job" ||
      strHas lowerAnalysis "hiring" then "hiring_pitch"
  else if strHas lowerQuery "funding" || strHas lowerQuery "invest" ||
      strHas lowerAnalysis "funding" then "startup_pitch"
  else "collaboration"

/-- `extractUserProfile` (lines 490-520). -/
def extractUserProfile (query : String) : UserProfile :=
  let profile : UserProfile :=
    { name := "User", company := "Company", valueProposition := "solutions" }
  let profile :=
    if strHas (jsLower query) "kanoj" then { profile with name := "Kanoj Vora" }
    else profile
  let profile :=
    if strHas (jsLower query) "prospectai" then
      { profile with
        company := "ProspectAI.co"
        valueProposition := "AI sales automation at scale"
        industry := some "AI/SaaS" }
    else profile
  let profile :=
    if strHas query "50k" || strHas query "50K" then
      { profile with
        caseStudy := some "Recently helped a company generate $50K pipeline with our tool" }
    else profile
  let profile :=
    if strHas (jsLower query) "ai" then
      { profile with skills := some "AI, automation, startups" }
    else profile
  profile

/-- Case-insensitive literal match at the front of the text. -/
def charsLeadCI : List Char → List Char → Bool
  | [], _ => true
  | _ :: _, [] => false
  | a :: as, b :: bs => a.toLower == b.toLower && charsLeadCI as bs

/-- Digit run folded into a number (`parseInt` on the capture). -/
def parseNatDigits (l : List Char) : Nat :=
  l.foldl (fun acc c => acc * 10 + (c.toNat - '0'.toNat)) 0

/-- First match of `/(\d+)\s*(?:people|founders|contacts|profiles)/i`:
leftmost position starting a digit run whose maximal extent, followed by
optional whitespace, is followed by one of the four words. -/
def findCountMatch : List Char → Option Nat
  | [] => none
  | c :: rest =>
    if c.isDigit then
      let run := (c :: rest).takeWhile Char.isDigit
      let after := ((c :: rest).dropWhile Char.isDigit).dropWhile Char.isWhitespace
      if ["people", "founders", "contacts", "profiles"].any
          (fun w => charsLeadCI w.data after) then
        some (parseNatDigits run)
      else findCountMatch rest
    else findCountMatch rest

/-- `extractPlanFromAnalysis` (lines 398-488). -/
def extractPlanFromAnalysis (analysisText originalQuery : String) : ExecutionPlan :=
  let searchQueries := (analysisText.splitOn "\n").foldl extractLineQueries []
  let searchQueries :=
    if searchQueries.length < 3 then searchQueries ++ fallbackQueryBlock originalQuery
    else searchQueries
  let emailType := classifyEmailType originalQuery analysisText
  let userProfile := extractUserProfile originalQuery
  let targetCount :=
    match findCountMatch originalQuery.data with
    | some n => min n 5
    | none => 3
  { intent := emailType
    searchQueries := searchQueries.take 10
    userProfile := userProfile
    emailType := emailType
    targetCount := targetCount }

/-- `createFallbackPlan` (lines 522-565): the deterministic plan used when
the planning model call rejects.  `unshift` prepends; the Bangalore check
runs before the YC check, so YC queries end up frontmost when both match. -/
def createFallbackPlan (userQuery : String) : ExecutionPlan :=
  let baseQueries :=
    [ "startup founders contact information"
    , "tech company CEO contact details"
    , "successful startup founders LinkedIn"
    , "venture backed startup founders"
    , "tech entrepreneur contact information"
    , "startup founder email addresses"
    , "emerging tech company leaders" ]
  let baseQueries :=
    if strHas (jsLower userQuery) "bangalore" || strHas (jsLower userQuery) "banglore" then
      [ "Bangalore startup founders contact"
      , "AI SaaS startup founders Bangalore"
      , "tech entrepreneurs Bangalore LinkedIn" ] ++ baseQueries
    else baseQueries
  let baseQueries :=
    if strHas (jsLower userQuery) "yc" || strHas (jsLower userQuery) "combinator" then
      [ "Y Combinator alumni founders"
      , "YC startup founders contact" ] ++ baseQueries
    else baseQueries
  { intent := "sales_outreach"
    searchQueries := baseQueries.take 8
    userProfile :=
      { name := "Tamil M"
        company := "zoq agent"
        valueProposition := "AI  automation at scale"
        caseStudy := some "helped dashchat.xyz generate leads"
        industry := some "AI/SaaS" }
    emailType := "sales_outreach"
    targetCount := 3 }

/-- `generateSearchQueriesAndPlan` (lines 351-396): the whole body after the
first progress update sits in a `try`; a rejected model call is answered by
the fallback plan, so the method never rejects.  The model call is the
`Except`-valued argument. -/
def generateSearchQueriesAndPlan (modelCall : Except String String)
    (userQuery : String) : ExecutionPlan :=
  match modelCall with
  | .ok analysisText => extractPlanFromAnalysis analysisText userQuery
  | .error _ => createFallbackPlan userQuery

end Orchestrator

/-! ## The SSE API handler (src/pages/api/agent/run.ts)

The handler, after request validation succeeds, writes the connection
comment and an initial status update, forwards every `StatusManager` update
to the stream while the client is connected, runs the orchestrator, and
finishes with either a `final-result` or an `error` event followed by the
`done` sentinel — unless the client disconnected, in which case
`responseSent` suppresses all further writes.

The prospect transformation (`transformCapturedDataToProspects`) is embedded
over the captured data records.  JavaScript `||`-defaulting on strings treats
`undefined` and `''` as absent; on numbers it treats `0` as absent; arrays
are always truthy. -/

namespace Api

open Orchestrator

/-- First truthy string of the candidates, else the default
(JS `a || b || dflt` on optional strings, where `''` is falsy). -/
def firstS : List (Option String) → String → String
  | [], dflt => dflt
  | some s :: rest, dflt => if s = "" then firstS rest dflt else s
  | none :: rest, dflt => firstS rest dflt

/-- First truthy string of the candidates, else `null`
(JS `a || b || null`). -/
def firstSOpt : List (Option String) → Option String
  | [] => none
  | some s :: rest => if s = "" then firstSOpt rest else some s
  | none :: rest => firstSOpt rest

/-- First truthy number of the candidates, else the default
(JS `a || b || 0`, where `0` is falsy). -/
def firstI : List (Option Int) → Int → Int
  | [], dflt => dflt
  | some n :: rest, dflt => if n = 0 then firstI rest dflt else n
  | none :: rest, dflt => firstI rest dflt

/-- One entry of the captured email array (run.ts reads these fields). -/
structure CapturedEmail where
  recipientName : Option String := none
  recipientEmail : Option String := none
  recipientCompany : Option String := none
  subject : Option String := none
  body : Option String := none
  personalizationPoints : Option (List String) := none
  confidence : Option Int := none
  wordCount : Option Nat := none
  emailType : Option String := none
deriving DecidableEq, Repr

/-- One entry of the captured discovery array. -/
structure CapturedPerson where
  name : Option String := none
  company : Option String := none
  role : Option String := none
  location : Option String := none
  email : Option String := none
  linkedinUrl : Option String := none
  companyUrl : Option String := none
  imageUrl : Option String := none
deriving DecidableEq, Repr

/-- `personalInfo` of one captured enriched profile. -/
structure PersonalInfo where
  location : Option String := none
  email : Option String := none
  linkedinUrl : Option String := none
deriving DecidableEq, Repr

/-- `companyInfo` of one captured enriched profile. -/
structure CapturedCompanyInfo where
  companyUrl : Option String := none
  fundingStage : Option String := none
  teamSize : Option Nat := none
deriving DecidableEq, Repr

/-- `emailSignals` of one captured enriched profile. -/
structure EmailSignals where
  painPoints : Option (List String) := none
  opportunities : Option (List String) := none
  personalizedHooks : Option (List String) := none
  currentChallenges : Option (List String) := none
deriving DecidableEq, Repr

/-- One entry of the captured enrichment array. -/
structure CapturedProfile where
  role : Option String := none
  personalInfo : Option PersonalInfo := none
  companyInfo : Option CapturedCompanyInfo := none
  keyInsights : Option (List String) := none
  emailSignals : Option EmailSignals := none
  confidence : Option Int := none
deriving DecidableEq, Repr

/-- The `capturedData` accumulator of the handler (lines 208-212). -/
structure CapturedData where
  emails : List CapturedEmail := []
  discovery : List CapturedPerson := []
  enrichment : List CapturedProfile := []
deriving DecidableEq, Repr

/-- `prospect.message`. -/
structure ProspectMessage where
  subject : String
  body : String
  personalization : List String
  confidence : Int
  wordCount : Nat
  emailType : String
deriving DecidableEq, Repr

/-- `prospect.research`. -/
structure ProspectResearch where
  insights : List String
  painPoints : List String
  opportunities : List String
  companyInfo : CapturedCompanyInfo
  fundingStage : String
  teamSize : Nat
deriving DecidableEq, Repr

/-- A frontend prospect (`generatedAt`, a wall-clock timestamp, omitted). -/
structure Prospect where
  id : String
  name : String
  company : String
  role : String
  location : String
  email : String
  linkedInUrl : Option String
  companyUrl : Option String
  imageUrl : Option String
  message : ProspectMessage
  research : ProspectResearch
  confidence : Int
  emailType : String
  wordCount : Nat
deriving DecidableEq, Repr

/-- The prospect object built for index `index` (run.ts lines 67-109),
merging the email entry with the discovery and enrichment entries of the
same index. -/
def buildProspect (index : Nat) (email : CapturedEmail)
    (discoveryPerson : CapturedPerson) (enrichedProfile : CapturedProfile) :
    Prospect :=
  { id := "prospect_" ++ toString (index + 1)
    name := firstS [email.recipientName, discoveryPerson.name]
      ("Person " ++ toString (index + 1))
    company := firstS [email.recipientCompany, discoveryPerson.company]
      "Unknown Company"
    role := firstS [discoveryPerson.role, enrichedProfile.role] "Professional"
    location := firstS
      [discoveryPerson.location, enrichedProfile.personalInfo.bind PersonalInfo.location] ""
    email := firstS
      [email.recipientEmail, discoveryPerson.email,
       enrichedProfile.personalInfo.bind PersonalInfo.email] ""
    linkedInUrl := firstSOpt
      [discoveryPerson.linkedinUrl, enrichedProfile.personalInfo.bind PersonalInfo.linkedinUrl]
    companyUrl := firstSOpt
      [discoveryPerson.companyUrl, enrichedProfile.companyInfo.bind CapturedCompanyInfo.companyUrl]
    imageUrl := firstSOpt [discoveryPerson.imageUrl]
    message :=
      { subject := firstS [email.subject] "No subject available"
        body := firstS [email.body] "No message available"
        personalization := email.personalizationPoints.getD []
        confidence := firstI [email.confidence] 0
        wordCount := email.wordCount.getD 0
        emailType := firstS [email.emailType] "unknown" }
    research :=
      { insights :=
          ((enrichedProfile.keyInsights.getD []) ++
           ((enrichedProfile.emailSignals.bind EmailSignals.personalizedHooks).getD []) ++
           ((enrichedProfile.emailSignals.bind EmailSignals.currentChallenges).getD [])).filter
            (fun s => !(s = ""))
        painPoints := (enrichedProfile.emailSignals.bind EmailSignals.painPoints).getD []
        opportunities := (enrichedProfile.emailSignals.bind EmailSignals.opportunities).getD []
        companyInfo := enrichedProfile.companyInfo.getD {}
        fundingStage := firstS
          [enrichedProfile.companyInfo.bind CapturedCompanyInfo.fundingStage] ""
        teamSize := (enrichedProfile.companyInfo.bind CapturedCompanyInfo.teamSize).getD 0 }
    confidence := firstI [email.confidence, enrichedProfile.confidence] 0
    emailType := firstS [email.emailType] "unknown"
    wordCount := email.wordCount.getD 0 }

/-- `transformCapturedDataToProspects` (run.ts lines 39-131): one prospect
per captured email, merged by position index with `capturedData.discovery`
and `capturedData.enrichment` (`discoveryData[index] || {}`). -/
def transformCapturedDataToProspects (captured : CapturedData) : List Prospect :=
  if 0 < captured.emails.length then
    captured.emails.enum.map fun ie =>
      buildProspect ie.1 ie.2 (captured.discovery.getD ie.1 {})
        (captured.enrichment.getD ie.1 {})
  else []

/-- The aggregated result sent on the `final-result` event (its `timing`,
`sessionId` and `metadata` fields are pass-throughs of the master result and
are omitted).  `averageConfidence` is a float average in the source, modelled
at `Int` precision. -/
structure FrontendResult where
  success : Bool
  prospects : List Prospect
  totalProspects : Nat
  averageConfidence : Int
deriving DecidableEq, Repr

/-- Lines 303-322: assemble the frontend result from the master result and
the captured data. -/
def mkFrontendResult (mr : MasterExecutionResult) (captured : CapturedData) :
    FrontendResult :=
  let prospects := transformCapturedDataToProspects captured
  { success := mr.success
    prospects := prospects
    totalProspects := prospects.length
    averageConfidence :=
      if 0 < prospects.length then
        (prospects.foldl (fun acc p => acc + p.confidence) 0) / prospects.length
      else 0 }

/-- A frontend-facing update object (the JSON written on a `message`
event). -/
structure FrontendUpdate where
  type : String
  phase : Option String := none
  message : Option String := none
  progress : Option Nat := none
  thinking : Option String := none
  data : Option String := none
  result : Option FrontendResult := none
deriving DecidableEq, Repr

/-- Lines 231-238: the StatusManager → frontend phase name mapping, with the
original name as fallback. -/
def phaseMapping (p : String) : String :=
  if p = "planning" then "planning"
  else if p = "discovery" then "discovery"
  else if p = "enrichment" then "research"
  else if p = "email_writing" then "generation"
  else if p = "complete" then "complete"
  else if p = "error" then "error"
  else p

/-- Lines 262-270: the status-update forwarded for one StatusManager
update. -/
def statusToFrontend (u : StatusUpdate) : FrontendUpdate :=
  { type := "status-update"
    phase := some (phaseMapping u.phase)
    message := some u.message
    progress := u.progress
    thinking := some u.message
    data := u.data }

/-- One write on the SSE response: the leading comment, a `message` event
carrying JSON, or the `done` sentinel (`endSSEStream` writes
`event: done\ndata: [DONE]` and ends the response). -/
inductive SSEWrite where
  | comment (text : String)
  | message (u : FrontendUpdate)
  | done
deriving DecidableEq, Repr

/-- The initial status update sent right after the headers (lines 193-199). -/
def initialUpdate : FrontendUpdate :=
  { type := "status-update"
    phase := some "planning"
    message := some "Starting agent process..."
    progress := some 0
    thinking := some "Initializing systems" }

/-- The write sequence of one handler execution after validation passed:
`statusUpdates` are the StatusManager updates emitted during the run (in
order), `outcome` is the awaited `executeQuery` (`.error` = it rejected),
`captured` the data captured from the update stream, and `disconnectAt`
the number of status updates delivered before the client disconnected
(`none` = the client stayed connected; `responseSent` then suppresses the
remaining forwards and both outcome events). -/
def handlerWrites (statusUpdates : List StatusUpdate)
    (outcome : Except String MasterExecutionResult) (captured : CapturedData)
    (disconnectAt : Option Nat) : List SSEWrite :=
  let fwd := match disconnectAt with
             | none => statusUpdates
             | some k => statusUpdates.take k
  [SSEWrite.comment "connection established", SSEWrite.message initialUpdate] ++
  fwd.map (fun u => SSEWrite.message (statusToFrontend u)) ++
  (match outcome, disconnectAt with
   | .ok mr, none =>
       [SSEWrite.message { type := "final-result", result := some (mkFrontendResult mr captured) },
        SSEWrite.done]
   | .ok _, some _ => []
   | .error e, none =>
       [SSEWrite.message { type := "error", message := some e }, SSEWrite.done]
   | .error _, some _ => [])

/-- An SSE write carrying one of the two outcome events. -/
def isOutcomeWrite : SSEWrite → Bool
  | .message u => u.type = "final-result" || u.type = "error"
  | _ => false

end Api

/-! ## Lemmas -/

namespace StatusManager

@[simp] theorem applyOps_nil (s : SMState) : applyOps [] s = s := rfl

@[simp] theorem applyOps_cons (op : SMOp) (ops : List SMOp) (s : SMState) :
    applyOps (op :: ops) s = applyOps ops (applySM op s) := rfl

theorem applyOps_append (l₁ l₂ : List SMOp) (s : SMState) :
    applyOps (l₁ ++ l₂) s = applyOps l₂ (applyOps l₁ s) := by
  induction l₁ generalizing s with
  | nil => rfl
  | cons op ops ih => simp [ih]

theorem phasesOf_addUpdate (s : SMState) (t p m : String)
    (d : Option String) (pr : Option Nat) :
    phasesOf (addUpdate s t p m d pr) = phasesOf s := by
  simp only [phasesOf, addUpdate, updatePhaseRec, List.map_map]
  congr 1
  funext pd
  by_cases h : pd.phase = p <;> simp [h]

theorem phasesOf_applySM (op : SMOp) (s : SMState) :
    phasesOf (applySM op s) = absOp op (phasesOf s) := by
  cases op with
  | startPhase p m =>
      simp only [applySM, startPhase, absOp, phasesOf_addUpdate]
      simp only [phasesOf, absSet, updatePhaseRec, List.map_map]
      congr 1
      funext pd
      by_cases h : pd.phase = p <;> simp [h]
  | completePhase p m d =>
      simp only [applySM, completePhase, absOp, phasesOf_addUpdate]
      simp only [phasesOf, absSet, updatePhaseRec, List.map_map]
      congr 1
      funext pd
      by_cases h : pd.phase = p <;> simp [h]
  | failPhase p m e =>
      simp only [applySM, failPhase, absOp, phasesOf_addUpdate]
      simp only [phasesOf, absSet, updatePhaseRec, List.map_map]
      congr 1
      funext pd
      by_cases h : pd.phase = p <;> simp [h]
  | updateProgress p m pr d => simp [applySM, updateProgress, absOp, phasesOf_addUpdate]
  | updateData p m d => simp [applySM, updateData, absOp, phasesOf_addUpdate]
  | updateInfo p m d => simp [applySM, updateInfo, absOp, phasesOf_addUpdate]
  | updateSuccess p m d => simp [applySM, updateSuccess, absOp, phasesOf_addUpdate]
  | clear => simp [applySM, clear, absOp, phasesOf, absInit, initPhases]

theorem phasesOf_applyOps (ops : List SMOp) (s : SMState) :
    phasesOf (applyOps ops s) = absFold ops (phasesOf s) := by
  induction ops generalizing s with
  | nil => rfl
  | cons op ops ih =>
      rw [applyOps_cons, ih, phasesOf_applySM]
      rfl

theorem statesOf_map_phasesOf (ops : List SMOp) (s : SMState) :
    (statesOf ops s).map phasesOf = absScan ops (phasesOf s) := by
  induction ops generalizing s with
  | nil => rfl
  | cons op ops ih => simp [statesOf, absScan, ih, phasesOf_applySM]

theorem absOp_of_not_transition {op : SMOp} (h : isTransition op = false)
    (m : List (String × PhaseStatus)) : absOp op m = m := by
  cases op <;> simp_all [isTransition, absOp]

theorem self_mem_absScan (ops : List SMOp) (m : List (String × PhaseStatus)) :
    m ∈ absScan ops m := by
  cases ops <;> simp [absScan]

@[simp] theorem absFold_nil (m : List (String × PhaseStatus)) :
    absFold [] m = m := rfl

@[simp] theorem absFold_cons (op : SMOp) (ops : List SMOp)
    (m : List (String × PhaseStatus)) :
    absFold (op :: ops) m = absFold ops (absOp op m) := rfl

theorem absFold_append (l₁ l₂ : List SMOp) (m : List (String × PhaseStatus)) :
    absFold (l₁ ++ l₂) m = absFold l₂ (absFold l₁ m) := by
  induction l₁ generalizing m with
  | nil => rfl
  | cons op ops ih => simp [ih]

theorem mem_absScan_append {x : List (String × PhaseStatus)}
    (l₁ l₂ : List SMOp) (m : List (String × PhaseStatus)) :
    x ∈ absScan (l₁ ++ l₂) m ↔
      x ∈ absScan l₁ m ∨ x ∈ absScan l₂ (absFold l₁ m) := by
  induction l₁ generalizing m with
  | nil =>
      simp only [List.nil_append, absFold_nil, absScan, List.mem_singleton]
      constructor
      · exact Or.inr
      · rintro (rfl | h)
        · exact self_mem_absScan _ _
        · exact h
  | cons op ops ih =>
      simp only [List.cons_append, absScan, List.mem_cons, absFold_cons]
      rw [show ops.append l₂ = ops ++ l₂ from rfl, ih, or_assoc]

theorem countInProgress_eq_countIP (s : SMState) :
    countInProgress s = countIP (phasesOf s) := by
  unfold countInProgress countIP phasesOf
  induction s.phases with
  | nil => rfl
  | cons p l ih => by_cases h : p.status = .in_progress <;> simp [h, ih]

end StatusManager

namespace Orchestrator

open StatusManager

@[simp] theorem isTransition_toOp (c : ChatterOp) :
    isTransition c.toOp = false := by
  cases c <;> rfl

theorem absFold_chatter (chatter : List ChatterOp) (m : List (String × PhaseStatus)) :
    absFold (chatter.map ChatterOp.toOp) m = m := by
  induction chatter generalizing m with
  | nil => rfl
  | cons c cs ih =>
      simp [absOp_of_not_transition (isTransition_toOp c), ih]

theorem mem_absScan_chatter {x : List (String × PhaseStatus)}
    (chatter : List ChatterOp) (m : List (String × PhaseStatus)) :
    x ∈ absScan (chatter.map ChatterOp.toOp) m ↔ x = m := by
  induction chatter generalizing m with
  | nil => simp [absScan]
  | cons c cs ih =>
      simp [absScan, absOp_of_not_transition (isTransition_toOp c), ih]

@[simp] theorem absInit_eq : absInit = mapAll .pending .pending .pending .pending := rfl

@[simp] theorem absSet_mapAll_planning (a b c d st : PhaseStatus) :
    absSet (mapAll a b c d) "planning" st = mapAll st b c d := rfl

@[simp] theorem absSet_mapAll_discovery (a b c d st : PhaseStatus) :
    absSet (mapAll a b c d) "discovery" st = mapAll a st c d := rfl

@[simp] theorem absSet_mapAll_enrichment (a b c d st : PhaseStatus) :
    absSet (mapAll a b c d) "enrichment" st = mapAll a b st d := rfl

@[simp] theorem absSet_mapAll_email (a b c d st : PhaseStatus) :
    absSet (mapAll a b c d) "email_writing" st = mapAll a b c st := rfl

@[simp] theorem absSet_mapAll_error (a b c d st : PhaseStatus) :
    absSet (mapAll a b c d) "error" st = mapAll a b c d := rfl

@[simp] theorem absFold_ite_neutral {op₁ op₂ : SMOp} (b : Bool)
    (h₁ : isTransition op₁ = false) (h₂ : isTransition op₂ = false)
    (m : List (String × PhaseStatus)) :
    absFold (if b then [op₁] else [op₂]) m = m := by
  cases b <;>
    simp [absOp_of_not_transition h₁, absOp_of_not_transition h₂]

@[simp] theorem mem_absScan_ite_neutral {x : List (String × PhaseStatus)}
    {op₁ op₂ : SMOp} (b : Bool)
    (h₁ : isTransition op₁ = false) (h₂ : isTransition op₂ = false)
    (m : List (String × PhaseStatus)) :
    x ∈ absScan (if b then [op₁] else [op₂]) m ↔ x = m := by
  cases b <;>
    simp [absScan, absOp_of_not_transition h₁, absOp_of_not_transition h₂]

@[simp] theorem absFold_ite_neutral_nil {op : SMOp} (b : Bool)
    (h : isTransition op = false) (m : List (String × PhaseStatus)) :
    absFold (if b then [op] else []) m = m := by
  cases b <;> simp [absOp_of_not_transition h]

@[simp] theorem mem_absScan_ite_neutral_nil {x : List (String × PhaseStatus)}
    {op : SMOp} (b : Bool) (h : isTransition op = false)
    (m : List (String × PhaseStatus)) :
    x ∈ absScan (if b then [op] else []) m ↔ x = m := by
  cases b <;> simp [absScan, absOp_of_not_transition h]

/-- Walking one attempt from any association reachable at an attempt
boundary: every intermediate association has at most one more `in_progress`
entry than the start; the final association is `attemptEnd`; a clean attempt
ends with all phases completed; a thrown attempt leaves the throwing stage
`in_progress`; no attempt ever marks any phase `failed`. -/
theorem attempt_walk (retry : Bool) (a : AttemptSpec)
    (m0 : List (String × PhaseStatus))
    (hm : m0 = absInit ∨ m0 = mapD ∨ m0 = mapE ∨ m0 = mapM) :
    (∀ x ∈ absScan (attemptOps retry a).1 m0, countIP x ≤ countIP m0 + 1) ∧
    absFold (attemptOps retry a).1 m0 = attemptEnd m0 a ∧
    ((attemptOps retry a).2.isNone = true → attemptEnd m0 a = mapDone) ∧
    ((attemptOps retry a).2.isNone = false → 1 ≤ countIP (attemptEnd m0 a)) ∧
    countFailed (attemptEnd m0 a) = 0 ∧
    ((attemptOps retry a).2.isNone = false →
      attemptEnd absInit a = mapD ∨ attemptEnd absInit a = mapE ∨
        attemptEnd absInit a = mapM) ∧
    absSet (attemptEnd m0 a) "error" .failed = attemptEnd m0 a := by
  obtain ⟨pl, cd, d, ce, e, cm, em⟩ := a
  rcases hm with rfl | rfl | rfl | rfl <;> cases d <;> cases e <;> cases em <;>
    · simp only [attemptOps, planningOps, stageOps, attemptEnd,
        absInit_eq, mapD, mapE, mapM, mapDone,
        mem_absScan_append, mem_absScan_chatter, mem_absScan_ite_neutral,
        mem_absScan_ite_neutral_nil,
        absFold_append, absFold_chatter, absFold_ite_neutral,
        absFold_ite_neutral_nil, absFold_cons, absFold_nil,
        absScan, absOp, isTransition,
        absSet_mapAll_planning, absSet_mapAll_discovery,
        absSet_mapAll_enrichment, absSet_mapAll_email, absSet_mapAll_error,
        List.append_assoc, List.cons_append, List.nil_append,
        List.mem_cons, List.mem_singleton, List.not_mem_nil,
        or_imp, forall_and, forall_eq, false_implies, true_implies,
        Option.isNone_some, Option.isNone_none, or_false, false_or]
      decide

theorem absFold_mem_absScan (ops : List SMOp) (m : List (String × PhaseStatus)) :
    absFold ops m ∈ absScan ops m := by
  induction ops generalizing m with
  | nil => simp [absScan]
  | cons op ops ih => simp only [absFold_cons, absScan, List.mem_cons]; exact Or.inr (ih _)

/-- Trace and final-state characterisation of a whole `executeQuery` run, at
the association level: (1) never more than two `in_progress` entries;
(2) never more than one when the first attempt is clean; (3) a successful run
ends with all phases completed; (4) a failed run ends with no phase `failed`
and at least one still `in_progress`. -/
theorem exec_walk (a1 a2 : AttemptSpec) :
    (∀ x ∈ absScan (execOps a1 a2).1 absInit, countIP x ≤ 2) ∧
    ((attemptOps false a1).2.isNone = true →
      ∀ x ∈ absScan (execOps a1 a2).1 absInit, countIP x ≤ 1) ∧
    ((execOps a1 a2).2.1 = true → absFold (execOps a1 a2).1 absInit = mapDone) ∧
    ((execOps a1 a2).2.1 = false →
      countFailed (absFold (execOps a1 a2).1 absInit) = 0 ∧
      1 ≤ countIP (absFold (execOps a1 a2).1 absInit)) := by
  have W1 := attempt_walk false a1 absInit (Or.inl rfl)
  rcases h1 : attemptOps false a1 with ⟨ops1, res1⟩
  rw [h1] at W1
  obtain ⟨W1scan, W1fold, W1none, W1some, W1failed, W1mem, W1err⟩ := W1
  cases res1 with
  | none =>
      have hEnd : attemptEnd absInit a1 = mapDone := W1none rfl
      have hmem : ∀ x ∈ absScan (execOps a1 a2).1 absInit,
          countIP x ≤ 1 := by
        intro x hx
        simp only [execOps, h1, List.append_assoc, List.cons_append,
          List.nil_append] at hx
        rw [show SMOp.updateInfo "planning" "Understanding your request..." none ::
          (ops1 ++ [SMOp.updateSuccess "complete" "Success! Generated personalized emails" none]) =
          [SMOp.updateInfo "planning" "Understanding your request..." none] ++
          (ops1 ++ [SMOp.updateSuccess "complete" "Success! Generated personalized emails" none])
          from rfl, mem_absScan_append, mem_absScan_append] at hx
        rcases hx with hx | hx | hx
        · simp only [absScan, absOp, List.mem_cons, List.not_mem_nil, or_false] at hx
          rcases hx with rfl | rfl <;> decide
        · have h := W1scan x (by simpa [absScan, absOp] using hx)
          have h0 : countIP absInit = 0 := by decide
          omega
        · have : absFold [SMOp.updateInfo "planning" "Understanding your request..." none]
              absInit = absInit := by decide
          rw [this, W1fold, hEnd] at hx
          simp only [absScan, absOp, List.mem_cons, List.not_mem_nil, or_false] at hx
          rcases hx with rfl | rfl <;> decide
      refine ⟨fun x hx => le_trans (hmem x hx) (by omega), fun _ => hmem, fun _ => ?_, ?_⟩
      · simp only [execOps, h1, List.append_assoc, List.cons_append, List.nil_append]
        rw [show SMOp.updateInfo "planning" "Understanding your request..." none ::
          (ops1 ++ [SMOp.updateSuccess "complete" "Success! Generated personalized emails" none]) =
          [SMOp.updateInfo "planning" "Understanding your request..." none] ++
          (ops1 ++ [SMOp.updateSuccess "complete" "Success! Generated personalized emails" none])
          from rfl, absFold_append, absFold_append]
        have : absFold [SMOp.updateInfo "planning" "Understanding your request..." none]
            absInit = absInit := by decide
        rw [this, W1fold, hEnd]
        decide
      · intro hfalse
        exfalso
        simp only [execOps, h1] at hfalse
        exact absurd hfalse (by decide)
  | some m1 =>
      have hEnd := W1mem rfl
      have hEnd4 : attemptEnd absInit a1 = absInit ∨ attemptEnd absInit a1 = mapD ∨
          attemptEnd absInit a1 = mapE ∨ attemptEnd absInit a1 = mapM := Or.inr hEnd
      have W2 := attempt_walk true a2 (attemptEnd absInit a1) hEnd4
      rcases h2 : attemptOps true a2 with ⟨ops2, res2⟩
      rw [h2] at W2
      obtain ⟨W2scan, W2fold, W2none, W2some, W2failed, W2mem, W2err⟩ := W2
      have hIP1 : countIP (attemptEnd absInit a1) = 1 := by
        rcases hEnd with h | h | h <;> rw [h] <;> decide
      -- decomposition of the op list shared by both sub-cases
      have hpre : ∀ tail : List SMOp, ∀ x,
          x ∈ absScan (SMOp.updateInfo "planning" "Understanding your request..." none ::
            (ops1 ++ (SMOp.updateInfo "error" ("Attempt 1 failed: " ++ m1 ++ ". Retrying...") none ::
              (ops2 ++ tail)))) absInit →
          x = absInit ∨ x ∈ absScan ops1 absInit ∨
            x ∈ absScan ops2 (attemptEnd absInit a1) ∨
            x ∈ absScan tail (absFold ops2 (attemptEnd absInit a1)) := by
        intro tail x hx
        simp only [absScan, absOp, List.mem_cons] at hx
        rcases hx with rfl | hx
        · exact Or.inl rfl
        rw [mem_absScan_append] at hx
        rcases hx with hx | hx
        · exact Or.inr (Or.inl hx)
        rw [show absFold ops1 absInit = attemptEnd absInit a1 from W1fold] at hx
        simp only [absScan, absOp, List.mem_cons] at hx
        rcases hx with rfl | hx
        · exact Or.inr (Or.inr (Or.inl (self_mem_absScan _ _)))
        rw [mem_absScan_append] at hx
        exact Or.inr (Or.inr hx)
      have hfold : ∀ tail : List SMOp,
          absFold (SMOp.updateInfo "planning" "Understanding your request..." none ::
            (ops1 ++ (SMOp.updateInfo "error" ("Attempt 1 failed: " ++ m1 ++ ". Retrying...") none ::
              (ops2 ++ tail)))) absInit =
          absFold tail (absFold ops2 (attemptEnd absInit a1)) := by
        intro tail
        rw [absFold_cons, show absOp (SMOp.updateInfo "planning" "Understanding your request..." none)
          absInit = absInit from rfl, absFold_append, W1fold, absFold_cons,
          show absOp (SMOp.updateInfo "error" ("Attempt 1 failed: " ++ m1 ++ ". Retrying...") none)
            (attemptEnd absInit a1) = attemptEnd absInit a1 from rfl, absFold_append]
      have hscan2 : ∀ x ∈ absScan ops2 (attemptEnd absInit a1), countIP x ≤ 2 := by
        intro x hx
        have := W2scan x hx
        omega
      cases res2 with
      | none =>
          have hEnd2 : attemptEnd (attemptEnd absInit a1) a2 = mapDone := W2none rfl
          refine ⟨?_, fun habs => by simp at habs, fun _ => ?_, ?_⟩
          · intro x hx
            simp only [execOps, h1, h2, List.append_assoc, List.cons_append,
              List.nil_append] at hx
            rcases hpre _ x hx with rfl | hx | hx | hx
            · decide
            · exact le_trans (W1scan x hx) (by decide)
            · exact hscan2 x hx
            · rw [W2fold, hEnd2] at hx
              simp only [absScan, absOp, List.mem_cons, List.not_mem_nil, or_false] at hx
              rcases hx with rfl | rfl <;> decide
          · simp only [execOps, h1, h2, List.append_assoc, List.cons_append,
              List.nil_append]
            rw [hfold, W2fold, hEnd2]
            decide
          · intro hfalse
            exfalso
            simp only [execOps, h1, h2] at hfalse
            exact absurd hfalse (by decide)
      | some m2 =>
          have hIPend : 1 ≤ countIP (attemptEnd (attemptEnd absInit a1) a2) :=
            W2some rfl
          have hfinal : absFold (execOps a1 a2).1 absInit =
              attemptEnd (attemptEnd absInit a1) a2 := by
            simp only [execOps, h1, h2, List.append_assoc, List.cons_append,
              List.nil_append]
            rw [hfold, W2fold]
            simp only [absFold_cons, absFold_nil, absOp, W2err]
          refine ⟨?_, fun habs => by simp at habs,
            fun habs => by simp only [execOps, h1, h2] at habs; simp at habs,
            fun _ => ?_⟩
          · intro x hx
            simp only [execOps, h1, h2, List.append_assoc, List.cons_append,
              List.nil_append] at hx
            rcases hpre _ x hx with rfl | hx | hx | hx
            · decide
            · exact le_trans (W1scan x hx) (by decide)
            · exact hscan2 x hx
            · rw [W2fold] at hx
              simp only [absScan, absOp, List.mem_cons, List.not_mem_nil,
                or_false, W2err] at hx
              have hb : countIP (attemptEnd (attemptEnd absInit a1) a2) ≤ 2 := by
                have := W2scan _ (absFold_mem_absScan ops2 (attemptEnd absInit a1))
                rw [W2fold] at this
                omega
              rcases hx with rfl | rfl <;> exact hb
          · rw [hfinal]
            exact ⟨W2failed, hIPend⟩

theorem filterStatus_comm (s : SMState) (st : PhaseStatus) :
    (s.phases.filter fun p => p.status = st).length =
      ((phasesOf s).filter fun e => e.2 = st).length := by
  unfold phasesOf
  induction s.phases with
  | nil => rfl
  | cons p l ih => by_cases h : p.status = st <;> simp [h, ih]

theorem all_completed_of_mapDone {s : SMState} (h : phasesOf s = mapDone) :
    ∀ p ∈ s.phases, p.status = .completed := by
  intro p hp
  have hm : (p.phase, p.status) ∈ phasesOf s := List.mem_map_of_mem _ hp
  rw [h] at hm
  simp only [mapDone, mapAll, List.mem_cons, List.not_mem_nil, or_false,
    Prod.mk.injEq] at hm
  rcases hm with ⟨_, h2⟩ | ⟨_, h2⟩ | ⟨_, h2⟩ | ⟨_, h2⟩ <;> exact h2

theorem countInProgress_eq_zero_of_all_completed {s : SMState}
    (h : ∀ p ∈ s.phases, p.status = .completed) : countInProgress s = 0 := by
  unfold countInProgress
  rw [List.length_eq_zero, List.filter_eq_nil_iff]
  intro p hp
  simp [h p hp]

theorem not_failed_of_countFailed_zero {s : SMState}
    (h : countFailed (phasesOf s) = 0) : ∀ p ∈ s.phases, p.status ≠ .failed := by
  intro p hp hf
  have hm : (p.phase, p.status) ∈ (phasesOf s).filter (fun e => e.2 = .failed) :=
    List.mem_filter.mpr ⟨List.mem_map_of_mem _ hp, by simp [hf]⟩
  unfold countFailed at h
  rw [List.length_eq_zero] at h
  rw [h] at hm
  exact absurd hm (List.not_mem_nil _)

theorem exists_in_progress_of_countIP {s : SMState}
    (h : 1 ≤ countIP (phasesOf s)) : ∃ p ∈ s.phases, p.status = .in_progress := by
  unfold countIP at h
  obtain ⟨e, he⟩ := List.exists_mem_of_length_pos h
  have h1 := List.mem_filter.mp he
  obtain ⟨p, hp, hpe⟩ := List.mem_map.mp h1.1
  refine ⟨p, hp, ?_⟩
  have h2 := h1.2
  rw [← hpe] at h2
  simpa using h2

@[simp] theorem phasesOf_initSM (sid : String) :
    phasesOf (initSM sid) = absInit := rfl

theorem mem_absScan_of_mem_execTrace {a1 a2 : AttemptSpec} {sid : String}
    {s : SMState} (hs : s ∈ execTrace a1 a2 sid) :
    phasesOf s ∈ absScan (execOps a1 a2).1 absInit := by
  have h := List.mem_map_of_mem phasesOf hs
  rwa [execTrace, statesOf_map_phasesOf, phasesOf_initSM] at h

end Orchestrator

namespace StatusManager

theorem seqExtends_refl (l : List StatusUpdate) : seqExtends l l :=
  ⟨[], List.append_nil l⟩

theorem seqExtends_trans {l₁ l₂ l₃ : List StatusUpdate}
    (h₁ : seqExtends l₁ l₂) (h₂ : seqExtends l₂ l₃) : seqExtends l₁ l₃ := by
  obtain ⟨t₁, rfl⟩ := h₁
  obtain ⟨t₂, rfl⟩ := h₂
  exact ⟨t₁ ++ t₂, (List.append_assoc _ _ _).symm⟩

theorem self_mem_statesOf (ops : List SMOp) (s : SMState) :
    s ∈ statesOf ops s := by
  cases ops <;> simp [statesOf]

theorem updates_extend_applySM {op : SMOp} (h : op ≠ SMOp.clear) (s : SMState) :
    seqExtends s.updates (applySM op s).updates := by
  cases op with
  | clear => exact absurd rfl h
  | startPhase p m => exact ⟨_, rfl⟩
  | completePhase p m d => exact ⟨_, rfl⟩
  | failPhase p m e => exact ⟨_, rfl⟩
  | updateProgress p m pr d => exact ⟨_, rfl⟩
  | updateData p m d => exact ⟨_, rfl⟩
  | updateInfo p m d => exact ⟨_, rfl⟩
  | updateSuccess p m d => exact ⟨_, rfl⟩

end StatusManager

namespace Agents

theorem findBasicPeopleGo_count (oracle : Nat → AttemptOutcome)
    (queries : List String) :
    ∀ fuel attempt made,
      (findBasicPeopleGo oracle queries attempt fuel made).2 ≤ made + fuel := by
  intro fuel
  induction fuel with
  | zero => intro attempt made; simp [findBasicPeopleGo]
  | succ fuel ih =>
      intro attempt made
      simp only [findBasicPeopleGo]
      split <;> split
      · show made + 1 ≤ made + (fuel + 1); omega
      · exact le_trans (ih (attempt + 1) (made + 1)) (by omega)
      · show made + 1 ≤ made + (fuel + 1); omega
      · exact le_trans (ih (attempt + 1) (made + 1)) (by omega)

theorem enrichGo_count (oracle : Nat → AttemptOutcome) :
    ∀ fuel attempt made, (enrichGo oracle attempt fuel made).2 ≤ made + fuel := by
  intro fuel
  induction fuel with
  | zero => intro attempt made; simp [enrichGo]
  | succ fuel ih =>
      intro attempt made
      simp only [enrichGo]
      split <;> split
      · show made + 1 ≤ made + (fuel + 1); omega
      · exact le_trans (ih (attempt + 1) (made + 1)) (by omega)
      · show made + 1 ≤ made + (fuel + 1); omega
      · exact le_trans (ih (attempt + 1) (made + 1)) (by omega)

theorem emailGo_count (oracle : Nat → AttemptOutcome) (emailType : String) :
    ∀ fuel attempt made,
      (emailGo oracle emailType attempt fuel made).2 ≤ made + fuel := by
  intro fuel
  induction fuel with
  | zero => intro attempt made; simp [emailGo]
  | succ fuel ih =>
      intro attempt made
      simp only [emailGo]
      split
      · split
        · split
          · show made + 1 ≤ made + (fuel + 1); omega
          · exact le_trans (ih (attempt + 1) (made + 1)) (by omega)
        · exact le_trans (ih (attempt + 1) (made + 1)) (by omega)
      · split
        · show made + 1 ≤ made + (fuel + 1); omega
        · exact le_trans (ih (attempt + 1) (made + 1)) (by omega)

theorem findBasicPeopleGo_insufficient (oracle : Nat → AttemptOutcome)
    (queries : List String)
    (hd : ∀ i, i < 2 → ∀ s, oracle i = .content s → ¬ 100 < s.length) :
    ∃ r : DiscoveryResponse,
      findBasicPeopleGo oracle queries 0 2 0 = (jsonOfDiscoveryResponse r, 2) ∧
      r.status = "failed" := by
  have step1 : findBasicPeopleGo oracle queries 0 2 0 =
      findBasicPeopleGo oracle queries 1 1 1 := by
    rcases h0 : oracle 0 with m | s
    · simp [findBasicPeopleGo, h0, retryAttempts]
    · have hlen := hd 0 (by omega) s h0
      simp [findBasicPeopleGo, h0, hlen]
  rw [step1]
  rcases h1 : oracle 1 with m | s
  · exact ⟨discoveryErrorResponse queries m,
      by simp [findBasicPeopleGo, h1, retryAttempts], rfl⟩
  · have hlen := hd 1 (by omega) s h1
    exact ⟨discoveryFailedResponse queries,
      by simp [findBasicPeopleGo, h1, hlen], rfl⟩

theorem enrichGo_insufficient (oracle : Nat → AttemptOutcome)
    (he : ∀ i, i < 2 → ∀ s, oracle i = .content s → ¬ 300 < s.length) :
    ∃ r : EnrichmentResponse,
      enrichGo oracle 0 2 0 = (jsonOfEnrichmentResponse r, 2) ∧
      r.status = "failed" := by
  have step1 : enrichGo oracle 0 2 0 = enrichGo oracle 1 1 1 := by
    rcases h0 : oracle 0 with m | s
    · simp [enrichGo, h0, retryAttempts]
    · have hlen := he 0 (by omega) s h0
      simp [enrichGo, h0, hlen]
  rw [step1]
  rcases h1 : oracle 1 with m | s
  · exact ⟨enrichmentErrorResponse, by simp [enrichGo, h1, retryAttempts], rfl⟩
  · have hlen := he 1 (by omega) s h1
    exact ⟨enrichmentFailedResponse, by simp [enrichGo, h1, hlen], rfl⟩

theorem emailGo_insufficient (oracle : Nat → AttemptOutcome) (emailType : String)
    (hm : ∀ i, i < 2 → ∀ s, oracle i = .content s →
      ¬ (100 < s.length ∧ (6 : Int) ≤ validateEmailQuality s)) :
    ∃ r : EmailResponse,
      emailGo oracle emailType 0 2 0 = (jsonOfEmailResponse r, 2) ∧
      r.status = "failed" := by
  have reject : ∀ i, i < 2 → ∀ s (h : oracle i = .content s) fuel made,
      emailGo oracle emailType i (fuel + 1) made =
        emailGo oracle emailType (i + 1) fuel (made + 1) := by
    intro i hi s h fuel made
    by_cases hlen : 100 < s.length
    · have hq : ¬ (6 : Int) ≤ validateEmailQuality s :=
        fun hq => hm i hi s h ⟨hlen, hq⟩
      simp [emailGo, h, hlen, hq]
    · simp [emailGo, h, hlen]
  have step1 : emailGo oracle emailType 0 2 0 = emailGo oracle emailType 1 1 1 := by
    rcases h0 : oracle 0 with m | s
    · simp [emailGo, h0, retryAttempts]
    · exact reject 0 (by omega) s h0 1 0
  rw [step1]
  rcases h1 : oracle 1 with m | s
  · exact ⟨emailErrorResponse emailType m,
      by simp [emailGo, h1, retryAttempts], rfl⟩
  · rw [reject 1 (by omega) s h1 0 1]
    exact ⟨emailFailedResponse emailType, by simp [emailGo], rfl⟩

/-- Dispatch of a batch whose argument strings all parse: the `mapM`
succeeds, producing one tool message per call, by index. -/
theorem mapM_dispatch (env : SearchEnv) (tcs : List ToolCall)
    (hp : ∀ tc ∈ tcs, (env.parseArgs tc.arguments).isSome = true) :
    ∃ rs : List ChatMsg,
      tcs.mapM (dispatchSearch env) = .ok rs ∧
      rs.length = tcs.length ∧
      ∀ i, i < tcs.length → ∀ args,
        env.parseArgs (tcs.getD i default).arguments = some args →
        rs.getD i (ChatMsg.user "") =
          (match env.callTool args with
           | .ok r => ChatMsg.tool (tcs.getD i default).id r
           | .error e => ChatMsg.tool (tcs.getD i default).id
               ("Search Error: " ++ e)) := by
  induction tcs with
  | nil => exact ⟨[], rfl, rfl, fun i hi => absurd hi (by simp)⟩
  | cons tc rest ih =>
      obtain ⟨args₀, hargs₀⟩ :=
        Option.isSome_iff_exists.mp (hp tc (List.mem_cons_self tc rest))
      obtain ⟨rs, hrs, hlen, hidx⟩ :=
        ih (fun t ht => hp t (List.mem_cons_of_mem tc ht))
      refine ⟨(match env.callTool args₀ with
               | .ok r => ChatMsg.tool tc.id r
               | .error e => ChatMsg.tool tc.id ("Search Error: " ++ e)) :: rs,
        ?_, by simpa using hlen, ?_⟩
      · rw [List.mapM_cons, hrs]
        have hd : dispatchSearch env tc =
            .ok (match env.callTool args₀ with
                 | .ok r => ChatMsg.tool tc.id r
                 | .error e => ChatMsg.tool tc.id ("Search Error: " ++ e)) := by
          rcases hc : env.callTool args₀ with r | e <;>
            simp [dispatchSearch, hargs₀, hc]
        rw [hd]
        rfl
      · intro i hi args hargs
        cases i with
        | zero =>
            simp only [List.getD_cons_zero] at hargs ⊢
            rw [hargs₀] at hargs
            cases hargs
            rfl
        | succ j =>
            simp only [List.getD_cons_succ] at hargs ⊢
            exact hidx j (by simpa using hi) args hargs

end Agents

/-! ## Claims -/

namespace Claims

open StatusManager Orchestrator Agents Api

/-- C1 (counterexample): the claim "at most one PhaseRecord is
`in_progress` at every point of a run, including across a mid-phase failure
and pipeline retry" is false.  In the run whose first attempt throws during
discovery, the trace passes through a state with two `in_progress` records:
`startPhase('planning')` of the retry attempt runs while the discovery record
of the failed attempt is still `in_progress`. -/
theorem claim1_counterexample :
    ∃ s ∈ execTrace
      { planningOk := true, discoveryChatter := [], discovery := .throws "boom",
        enrichmentChatter := [], enrichment := .okData,
        emailChatter := [], email := .okData }
      { planningOk := true, discoveryChatter := [], discovery := .okData,
        enrichmentChatter := [], enrichment := .okData,
        emailChatter := [], email := .okData }
      "session", 2 ≤ countInProgress s := by
  decide

/-- C1 (amended): during every `executeQuery` run, at most two PhaseRecords
are ever `in_progress` simultaneously, and at most one as long as the first
pipeline attempt has not failed (in particular in every run that needs no
retry).  The second simultaneous record is exactly the stale record of the
stage that failed, which no operation of the retry path resets. -/
theorem claim1_amended (a1 a2 : AttemptSpec) (sid : String) :
    (∀ s ∈ execTrace a1 a2 sid, countInProgress s ≤ 2) ∧
    ((attemptOps false a1).2.isNone = true →
      ∀ s ∈ execTrace a1 a2 sid, countInProgress s ≤ 1) := by
  have E := exec_walk a1 a2
  exact ⟨fun s hs => by
      rw [countInProgress_eq_countIP]
      exact E.1 _ (mem_absScan_of_mem_execTrace hs),
    fun hclean s hs => by
      rw [countInProgress_eq_countIP]
      exact E.2.1 hclean _ (mem_absScan_of_mem_execTrace hs)⟩

/-- C1 (witness): both bounds of `claim1_amended` evaluated on the initial
state of a clean concrete run. -/
theorem claim1_witness :
    countInProgress (initSM "sess") ≤ 2 ∧ countInProgress (initSM "sess") ≤ 1 := by
  refine ⟨(claim1_amended
      { planningOk := true, discoveryChatter := [], discovery := .okData,
        enrichmentChatter := [], enrichment := .okData,
        emailChatter := [], email := .okData }
      { planningOk := true, discoveryChatter := [], discovery := .okData,
        enrichmentChatter := [], enrichment := .okData,
        emailChatter := [], email := .okData } "sess").1 _ ?_,
    (claim1_amended
      { planningOk := true, discoveryChatter := [], discovery := .okData,
        enrichmentChatter := [], enrichment := .okData,
        emailChatter := [], email := .okData }
      { planningOk := true, discoveryChatter := [], discovery := .okData,
        enrichmentChatter := [], enrichment := .okData,
        emailChatter := [], email := .okData } "sess").2 (by decide) _ ?_⟩
  all_goals
    rw [execTrace]
    exact self_mem_statesOf _ _

/-- C2 (counterexample): the claim "after `executeQuery` returns, either all
phases are completed or at least one is failed, and none is `in_progress`"
is false.  When both attempts throw during discovery, the run returns with
`success = false`, no PhaseRecord `failed` (the final `failPhase` targets
the nonexistent phase name `'error'`) and the discovery record still
`in_progress`. -/
theorem claim2_counterexample :
    (¬ ∀ p ∈ (executeQuery
      { planningOk := true, discoveryChatter := [], discovery := .throws "x",
        enrichmentChatter := [], enrichment := .okData,
        emailChatter := [], email := .okData }
      { planningOk := true, discoveryChatter := [], discovery := .throws "y",
        enrichmentChatter := [], enrichment := .okData,
        emailChatter := [], email := .okData } "sess").2.phases,
        p.status = .completed) ∧
    (∀ p ∈ (executeQuery
      { planningOk := true, discoveryChatter := [], discovery := .throws "x",
        enrichmentChatter := [], enrichment := .okData,
        emailChatter := [], email := .okData }
      { planningOk := true, discoveryChatter := [], discovery := .throws "y",
        enrichmentChatter := [], enrichment := .okData,
        emailChatter := [], email := .okData } "sess").2.phases,
        p.status ≠ .failed) ∧
    1 ≤ countInProgress (executeQuery
      { planningOk := true, discoveryChatter := [], discovery := .throws "x",
        enrichmentChatter := [], enrichment := .okData,
        emailChatter := [], email := .okData }
      { planningOk := true, discoveryChatter := [], discovery := .throws "y",
        enrichmentChatter := [], enrichment := .okData,
        emailChatter := [], email := .okData } "sess").2 := by
  decide

/-- C2 (amended): after `executeQuery` returns, the PhaseRecords satisfy:
on the success path all four are `completed` and none `in_progress`
(as claimed); on the exhaustion path no record is ever `failed` — the final
`failPhase('error', ...)` names a phase absent from the map — and at least
one record (the stage in flight when the last attempt failed) remains
`in_progress`. -/
theorem claim2_amended (a1 a2 : AttemptSpec) (sid : String) :
    ((executeQuery a1 a2 sid).1.success = true →
      (∀ p ∈ (executeQuery a1 a2 sid).2.phases, p.status = .completed) ∧
      countInProgress (executeQuery a1 a2 sid).2 = 0) ∧
    ((executeQuery a1 a2 sid).1.success = false →
      (∀ p ∈ (executeQuery a1 a2 sid).2.phases, p.status ≠ .failed) ∧
      ∃ p ∈ (executeQuery a1 a2 sid).2.phases, p.status = .in_progress) := by
  have E := exec_walk a1 a2
  have hfinal : phasesOf (executeQuery a1 a2 sid).2 =
      absFold (execOps a1 a2).1 absInit := by
    show phasesOf (applyOps (execOps a1 a2).1 (initSM sid)) = _
    rw [phasesOf_applyOps, phasesOf_initSM]
  constructor
  · intro h
    have hD : phasesOf (executeQuery a1 a2 sid).2 = mapDone := by
      rw [hfinal]
      exact E.2.2.1 h
    have hall := all_completed_of_mapDone hD
    exact ⟨hall, countInProgress_eq_zero_of_all_completed hall⟩
  · intro h
    have hF := E.2.2.2 h
    rw [← hfinal] at hF
    exact ⟨not_failed_of_countFailed_zero hF.1, exists_in_progress_of_countIP hF.2⟩

/-- C2 (witness): `claim2_amended` evaluated on a concrete clean run and on a
concrete run exhausting both attempts. -/
theorem claim2_witness :
    ((∀ p ∈ (executeQuery
      { planningOk := true, discoveryChatter := [], discovery := .okData,
        enrichmentChatter := [], enrichment := .okData,
        emailChatter := [], email := .okData }
      { planningOk := true, discoveryChatter := [], discovery := .okData,
        enrichmentChatter := [], enrichment := .okData,
        emailChatter := [], email := .okData } "s1").2.phases,
        p.status = .completed) ∧
      countInProgress (executeQuery
      { planningOk := true, discoveryChatter := [], discovery := .okData,
        enrichmentChatter := [], enrichment := .okData,
        emailChatter := [], email := .okData }
      { planningOk := true, discoveryChatter := [], discovery := .okData,
        enrichmentChatter := [], enrichment := .okData,
        emailChatter := [], email := .okData } "s1").2 = 0) ∧
    ((∀ p ∈ (executeQuery
      { planningOk := true, discoveryChatter := [], discovery := .throws "x",
        enrichmentChatter := [], enrichment := .okData,
        emailChatter := [], email := .okData }
      { planningOk := true, discoveryChatter := [], discovery := .throws "y",
        enrichmentChatter := [], enrichment := .okData,
        emailChatter := [], email := .okData } "s2").2.phases,
        p.status ≠ .failed) ∧
      ∃ p ∈ (executeQuery
      { planningOk := true, discoveryChatter := [], discovery := .throws "x",
        enrichmentChatter := [], enrichment := .okData,
        emailChatter := [], email := .okData }
      { planningOk := true, discoveryChatter := [], discovery := .throws "y",
        enrichmentChatter := [], enrichment := .okData,
        emailChatter := [], email := .okData } "s2").2.phases,
        p.status = .in_progress) :=
  ⟨(claim2_amended _ _ "s1").1 (by decide), (claim2_amended _ _ "s2").2 (by decide)⟩

/-- C3 (counterexample): the claim "`getSummary` reports `in_progress` in
every case other than some-failed / all-completed, including the initial
all-pending state" is false: on a freshly initialised manager no phase is
failed and not all are completed, yet `overallStatus` is `'pending'`, not
`'in_progress'`. -/
theorem claim3_counterexample :
    (∀ p ∈ (initSM "s").phases, p.status ≠ .failed) ∧
    (¬ ∀ p ∈ (initSM "s").phases, p.status = .completed) ∧
    (getSummary (initSM "s")).overallStatus ≠ "in_progress" ∧
    (getSummary (initSM "s")).overallStatus = "pending" := by
  decide

/-- C3 (amended): for every combination of the four PhaseRecord statuses,
`getSummary().overallStatus` is `'failed'` when any phase is failed, else
`'completed'` iff all phases are completed, else `'in_progress'` when at
least one phase is `in_progress`, and otherwise `'pending'` (the case the
original claim folded into `'in_progress'`). -/
theorem claim3_amended (a b c d : PhaseStatus) (s : SMState)
    (h : phasesOf s = mapAll a b c d) :
    (getSummary s).overallStatus =
      (if a = .failed ∨ b = .failed ∨ c = .failed ∨ d = .failed then "failed"
       else if a = .completed ∧ b = .completed ∧ c = .completed ∧ d = .completed then
         "completed"
       else if a = .in_progress ∨ b = .in_progress ∨ c = .in_progress ∨
           d = .in_progress then "in_progress"
       else "pending") := by
  have hlen : s.phases.length = 4 := by
    have hc := congrArg List.length h
    rw [show (phasesOf s).length = s.phases.length by simp [phasesOf]] at hc
    simpa [mapAll] using hc
  have hfc := filterStatus_comm s .completed
  have hff := filterStatus_comm s .failed
  have hfi := filterStatus_comm s .in_progress
  rw [h] at hfc hff hfi
  simp only [getSummary, hlen, hfc, hff, hfi]
  cases a <;> cases b <;> cases c <;> cases d <;> decide

/-- C3 (witness): `claim3_amended` evaluated on the freshly initialised
manager, whose four records are all `pending`. -/
theorem claim3_witness : (getSummary (initSM "w")).overallStatus = "pending" := by
  have h := claim3_amended .pending .pending .pending .pending (initSM "w") rfl
  simpa using h

/-- C8 (counterexample): the claim "no StatusManager operation removes or
mutates an already-appended StatusUpdate; the updates observed earlier are a
prefix of those observed later" is false for `clear()`: after one
`updateInfo` followed by `clear`, the earlier one-element log is not a
prefix of the later empty log. -/
theorem claim8_counterexample :
    ¬ seqExtends
      (applySM (SMOp.updateInfo "planning" "Understanding your request..." none)
        (initSM "s")).updates
      (applyOps [SMOp.updateInfo "planning" "Understanding your request..." none,
        SMOp.clear] (initSM "s")).updates := by
  rintro ⟨t, ht⟩
  simp [applyOps, applySM, updateInfo, addUpdate, clear] at ht

/-- C8 (amended): every `StatusManager` operation except `clear` only appends
to the session log: across any `clear`-free operation sequence, the updates
observed at the earlier point are an unchanged initial segment of the updates
observed at the later point.  `clear` (a cleanup helper) resets the log. -/
theorem claim8_amended (ops : List SMOp) (h : ∀ op ∈ ops, op ≠ SMOp.clear)
    (s : SMState) : seqExtends s.updates (applyOps ops s).updates := by
  induction ops generalizing s with
  | nil => exact seqExtends_refl _
  | cons op rest ih =>
      exact seqExtends_trans
        (updates_extend_applySM (h op (List.mem_cons_self op rest)) s)
        (ih (fun o ho => h o (List.mem_cons_of_mem op ho)) (applySM op s))

/-- C8 (witness): `claim8_amended` on a concrete two-operation `clear`-free
sequence from a fresh manager. -/
theorem claim8_witness :
    seqExtends (initSM "s").updates
      (applyOps [SMOp.updateInfo "planning" "Understanding your request..." none,
        SMOp.startPhase "planning" "Analyzing request..."] (initSM "s")).updates :=
  claim8_amended _ (by decide) _

/-- C4: each stage agent's attempt loop, configured with
`retryAttempts = 2`, consults its model-call oracle at most twice for every
oracle (a third attempt is never made), and when both attempts throw or
yield insufficient (for email: quality-rejected) output, the loop returns
the stage's serialised payload with `status = "failed"` after exactly two
attempts instead of throwing. -/
theorem claim4_retry_bound (od oe om : Nat → AttemptOutcome)
    (queries : List String) (emailType : String)
    (hd : ∀ i, i < 2 → ∀ s, od i = .content s → ¬ 100 < s.length)
    (he : ∀ i, i < 2 → ∀ s, oe i = .content s → ¬ 300 < s.length)
    (hm : ∀ i, i < 2 → ∀ s, om i = .content s →
      ¬ (100 < s.length ∧ (6 : Int) ≤ validateEmailQuality s)) :
    (∀ od' : Nat → AttemptOutcome, ∀ qs,
      (findBasicPeopleGo od' qs 0 retryAttempts 0).2 ≤ 2) ∧
    (∀ oe' : Nat → AttemptOutcome, (enrichGo oe' 0 retryAttempts 0).2 ≤ 2) ∧
    (∀ om' : Nat → AttemptOutcome, ∀ t,
      (emailGo om' t 0 retryAttempts 0).2 ≤ 2) ∧
    (∃ r : DiscoveryResponse,
      findBasicPeople true od queries = .ok (jsonOfDiscoveryResponse r, 2) ∧
      r.status = "failed") ∧
    (∃ r : EnrichmentResponse,
      enrichPeopleWithEmailSignals true oe = .ok (jsonOfEnrichmentResponse r, 2) ∧
      r.status = "failed") ∧
    (∃ r : EmailResponse,
      generatePersonalizedEmails om emailType = (jsonOfEmailResponse r, 2) ∧
      r.status = "failed") := by
  refine ⟨fun od' qs => by simpa using findBasicPeopleGo_count od' qs 2 0 0,
    fun oe' => by simpa using enrichGo_count oe' 2 0 0,
    fun om' t => by simpa using emailGo_count om' t 2 0 0, ?_, ?_, ?_⟩
  · obtain ⟨r, hr, hst⟩ := findBasicPeopleGo_insufficient od queries hd
    exact ⟨r, by simp [findBasicPeople, retryAttempts, hr], hst⟩
  · obtain ⟨r, hr, hst⟩ := enrichGo_insufficient oe he
    exact ⟨r, by simp [enrichPeopleWithEmailSignals, retryAttempts, hr], hst⟩
  · obtain ⟨r, hr, hst⟩ := emailGo_insufficient om emailType hm
    exact ⟨r, by simp [generatePersonalizedEmails, retryAttempts, hr], hst⟩

/-- C4 (witness): `claim4_retry_bound` with oracles whose every attempt
throws. -/
theorem claim4_witness :
    (∃ r : DiscoveryResponse,
      findBasicPeople true (fun _ => .err "boom") ["q1"] =
        .ok (jsonOfDiscoveryResponse r, 2) ∧ r.status = "failed") ∧
    (∃ r : EnrichmentResponse,
      enrichPeopleWithEmailSignals true (fun _ => .err "boom") =
        .ok (jsonOfEnrichmentResponse r, 2) ∧ r.status = "failed") ∧
    (∃ r : EmailResponse,
      generatePersonalizedEmails (fun _ => .err "boom") "sales_outreach" =
        (jsonOfEmailResponse r, 2) ∧ r.status = "failed") := by
  obtain ⟨-, -, -, h4, h5, h6⟩ :=
    claim4_retry_bound (fun _ => .err "boom") (fun _ => .err "boom")
      (fun _ => .err "boom") ["q1"] "sales_outreach"
      (by intro i hi s h; simp at h) (by intro i hi s h; simp at h)
      (by intro i hi s h; simp at h)
  exact ⟨h4, h5, h6⟩

/-- C5: in one discovery model turn requesting a non-empty batch of
`search_engine` tool calls (all with parseable arguments), every call is
dispatched: the conversation is extended by exactly one tool message per
call — a `Search Error: ...` string when that call's dispatch rejected, the
serialised result otherwise — followed by the compilation request, and the
returned content is the follow-up compilation model call's answer on that
conversation.  No individual failure aborts or skips sibling calls. -/
theorem claim5_batch_fanout (env : SearchEnv) (messages : List ChatMsg)
    (am : AssistantMsg) (hne : am.tool_calls ≠ [])
    (hp : ∀ tc ∈ am.tool_calls, (env.parseArgs tc.arguments).isSome = true) :
    ∃ toolMsgs : List ChatMsg,
      handleSearchAndReturn env messages (some am) =
        .ok (messages ++ [ChatMsg.assistant am.content am.tool_calls] ++
              toolMsgs ++ [ChatMsg.user compilationPrompt],
             env.compile (messages ++ [ChatMsg.assistant am.content am.tool_calls] ++
              toolMsgs ++ [ChatMsg.user compilationPrompt])) ∧
      toolMsgs.length = am.tool_calls.length ∧
      (∀ i, i < am.tool_calls.length → ∀ args,
        env.parseArgs ((am.tool_calls.getD i default).arguments) = some args →
        toolMsgs.getD i (ChatMsg.user "") =
          (match env.callTool args with
           | .ok r => ChatMsg.tool (am.tool_calls.getD i default).id r
           | .error e => ChatMsg.tool (am.tool_calls.getD i default).id
               ("Search Error: " ++ e))) := by
  obtain ⟨rs, hrs, hlen, hidx⟩ := mapM_dispatch env am.tool_calls hp
  refine ⟨rs, ?_, hlen, hidx⟩
  have hpos : 0 < am.tool_calls.length := List.length_pos.mpr hne
  simp only [handleSearchAndReturn, if_pos hpos]
  rw [hrs]
  rfl

/-- C5 (witness): `claim5_batch_fanout` on a concrete three-call batch whose
second call fails. -/
theorem claim5_witness :
    ∃ toolMsgs : List ChatMsg,
      handleSearchAndReturn
        { parseArgs := fun s => some s
          callTool := fun a => if a = "bad" then .error "boom" else .ok ("res:" ++ a)
          compile := fun _ => "compiled people JSON" }
        [ChatMsg.user "prompt"]
        (some { content := none
                tool_calls := [⟨"c1", "search_engine", "q1"⟩,
                  ⟨"c2", "search_engine", "bad"⟩, ⟨"c3", "search_engine", "q3"⟩] }) =
        .ok ([ChatMsg.user "prompt"] ++
              [ChatMsg.assistant none [⟨"c1", "search_engine", "q1"⟩,
                ⟨"c2", "search_engine", "bad"⟩, ⟨"c3", "search_engine", "q3"⟩]] ++
              toolMsgs ++ [ChatMsg.user compilationPrompt],
             "compiled people JSON") ∧
      toolMsgs.length = 3 ∧
      toolMsgs.getD 1 (ChatMsg.user "") = ChatMsg.tool "c2" "Search Error: boom" := by
  obtain ⟨tm, h1, h2, h3⟩ := claim5_batch_fanout
    { parseArgs := fun s => some s
      callTool := fun a => if a = "bad" then .error "boom" else .ok ("res:" ++ a)
      compile := fun _ => "compiled people JSON" }
    [ChatMsg.user "prompt"]
    { content := none
      tool_calls := [⟨"c1", "search_engine", "q1"⟩,
        ⟨"c2", "search_engine", "bad"⟩, ⟨"c3", "search_engine", "q3"⟩] }
    (by decide) (by intro tc _; rfl)
  refine ⟨tm, h1, h2, ?_⟩
  have h := h3 1 (by decide) "bad" rfl
  simpa using h

/-- C6: an email content string containing the phrase "hope this finds you
well" and none of the personalization-signal phrases scores at most 5 with
`validateEmailQuality`, and the email-writing attempt acceptance test
(content length > 100 and score ≥ 6) rejects it. -/
theorem claim6_generic_email_rejected (content : String)
    (hg : strHas (jsLower content) "hope this finds you well" = true)
    (hs : personalizationCount content = 0) :
    validateEmailQuality content ≤ 5 ∧ emailAttemptAccepted content = false := by
  have h1 : 1 ≤ ((genericPhrases.filter fun p => strHas (jsLower content) p).length : Int) := by
    have hmem : "hope this finds you well" ∈
        genericPhrases.filter (fun p => strHas (jsLower content) p) :=
      List.mem_filter.mpr ⟨by simp [genericPhrases], by simpa using hg⟩
    have := List.length_pos_of_mem hmem
    omega
  have hscore : validateEmailQuality content ≤ 5 := by
    simp only [validateEmailQuality]
    rw [if_pos hs]
    split
    · split <;> omega
    · split
      · split <;> omega
      · split <;> omega
  refine ⟨hscore, ?_⟩
  have hq : ¬ (6 : Int) ≤ validateEmailQuality content := by omega
  simp [emailAttemptAccepted, hq]

/-- C6 (witness): `claim6_generic_email_rejected` on a concrete generic
email. -/
theorem claim6_witness :
    validateEmailQuality emailFixture ≤ 5 ∧
      emailAttemptAccepted emailFixture = false :=
  claim6_generic_email_rejected emailFixture (by decide) (by decide)

/-- C7: the planning step never propagates a model-call failure — a rejected
model call is answered with `createFallbackPlan`, which depends only on the
query — and two invocations with the identical query under failing model
calls (whatever the error values) return identical plans.  On a concrete
Bangalore query the fallback plan is the fully determined 8-query
sales-outreach plan. -/
theorem claim7_planning_fallback (q e₁ : String) :
    generateSearchQueriesAndPlan (.error e₁) q = createFallbackPlan q ∧
    (∀ e₂ : String, generateSearchQueriesAndPlan (.error e₁) q =
      generateSearchQueriesAndPlan (.error e₂) q) ∧
    (createFallbackPlan
        "Find AI SaaS founders in Bangalore and write cold emails").searchQueries =
      [ "Bangalore startup founders contact"
      , "AI SaaS startup founders Bangalore"
      , "tech entrepreneurs Bangalore LinkedIn"
      , "startup founders contact information"
      , "tech company CEO contact details"
      , "successful startup founders LinkedIn"
      , "venture backed startup founders"
      , "tech entrepreneur contact information" ] ∧
    (createFallbackPlan
        "Find AI SaaS founders in Bangalore and write cold emails").emailType =
      "sales_outreach" :=
  ⟨rfl, fun _ => rfl, by decide, by decide⟩

/-- C9: for a validated request whose client stays connected
(`disconnectAt = none`), the handler's write sequence ends with the `done`
sentinel immediately preceded by exactly one outcome event — `final-result`
when `executeQuery` resolved (whatever its `success` flag), `error` when it
rejected; the stream is never ended without one of the two. -/
theorem claim9_stream_outcome (updates : List StatusUpdate)
    (outcome : Except String MasterExecutionResult) (captured : CapturedData) :
    ∃ front : List SSEWrite, ∃ w : SSEWrite,
      handlerWrites updates outcome captured none = front ++ [w, SSEWrite.done] ∧
      isOutcomeWrite w = true ∧
      (match outcome with
       | .ok mr => w = .message { type := "final-result"
                                  result := some (mkFrontendResult mr captured) }
       | .error e => w = .message { type := "error", message := some e }) := by
  cases outcome with
  | ok mr =>
      exact ⟨[SSEWrite.comment "connection established",
        SSEWrite.message initialUpdate] ++
        updates.map (fun u => SSEWrite.message (statusToFrontend u)),
        SSEWrite.message { type := "final-result"
                           result := some (mkFrontendResult mr captured) },
        rfl, rfl, rfl⟩
  | error e =>
      exact ⟨[SSEWrite.comment "connection established",
        SSEWrite.message initialUpdate] ++
        updates.map (fun u => SSEWrite.message (statusToFrontend u)),
        SSEWrite.message { type := "error", message := some e },
        rfl, rfl, rfl⟩

/-- C10: the prospect list of the final result is built purely by position
index from the captured email array: its length equals the number of
captured emails (empty when none were captured, however much discovery or
enrichment data exists), prospect `i` merges email `i` with discovery entry
`i` and enrichment entry `i` — both replaced by the empty record `{}` when
those arrays are shorter — and the `final-result` payload's `prospects`
field is exactly this list. -/
theorem claim10_prospects_by_index (captured : CapturedData) :
    (transformCapturedDataToProspects captured).length = captured.emails.length ∧
    (∀ d e, transformCapturedDataToProspects { emails := [], discovery := d, enrichment := e } = []) ∧
    (∀ i, i < captured.emails.length →
      (transformCapturedDataToProspects captured).getD i (buildProspect 0 {} {} {}) =
        buildProspect i (captured.emails.getD i {})
          (captured.discovery.getD i {}) (captured.enrichment.getD i {})) ∧
    (∀ mr : MasterExecutionResult,
      (mkFrontendResult mr captured).prospects =
        transformCapturedDataToProspects captured) := by
  refine ⟨?_, fun d e => rfl, ?_, fun mr => rfl⟩
  · unfold transformCapturedDataToProspects
    split
    · simp [List.enum_length]
    · rename_i h
      simp only [List.length_nil]
      omega
  · intro i hi
    unfold transformCapturedDataToProspects
    rw [if_pos (by omega)]
    rw [List.getD_eq_getElem _ _ (by simpa [List.enum_length] using hi)]
    rw [List.getElem_map, List.getElem_enum]
    have he : captured.emails.getD i {} = captured.emails[i] :=
      List.getD_eq_getElem _ _ hi
    rw [he]

/-- C10 (witness): `claim10_prospects_by_index` on concrete captured data
with two emails, one discovery entry and no enrichment entries. -/
theorem claim10_witness :
    (transformCapturedDataToProspects
      { emails := [{ recipientName := some "A", subject := some "S" },
                   { body := some "B" }]
        discovery := [{ company := some "ACo" }]
        enrichment := [] }).length = 2 ∧
    (transformCapturedDataToProspects
      { emails := [{ recipientName := some "A", subject := some "S" },
                   { body := some "B" }]
        discovery := [{ company := some "ACo" }]
        enrichment := [] }).getD 1 (buildProspect 0 {} {} {}) =
      buildProspect 1 ({ body := some "B" }) {} {} := by
  obtain ⟨h1, -, h3, -⟩ := claim10_prospects_by_index
    { emails := [{ recipientName := some "A", subject := some "S" },
                 { body := some "B" }]
      discovery := [{ company := some "ACo" }]
      enrichment := [] }
  exact ⟨h1, h3 1 (by decide)⟩

end Claims

end ZoqAgent
